import Mathlib

/-!
Shallow embedding of the `mcp-state-of-play` action-resolution engine
(`src/game_engine.py` together with the pydantic entity models in
`src/models/entities.py` and `src/models/game_state.py`).

Python dictionaries are modelled as association lists (`AList`) that keep
insertion order, mirror `dict.get`/item-assignment/`del` semantics, and have
decidable operations so that concrete game states can be evaluated.  Free-form
`Any` values stored in flag/effect fields are modelled by the small dynamic
value type `PyVal`.  Each engine method `f(game_id, ...)` first loads the
state for `game_id` from the state store and optionally saves an updated
state back; the embedding `f (state? : Option GameState) ...` receives the
result of that load and returns the produced `ActionResult` together with
`some s'` exactly when the method called `save_game_state` with `s'`
(`none` when the method returned without saving).
-/

namespace StateOfPlay

/-- Dynamic (Python `Any`) values that occur in flag and effect-parameter
positions: `None`, booleans, integers and strings. -/
inductive PyVal where
  | none
  | bool (b : Bool)
  | int (n : Int)
  | str (s : String)
deriving DecidableEq, Repr

/-- Python truthiness of a `PyVal` (`bool(v)`). -/
def PyVal.truthy : PyVal → Bool
  | PyVal.none => false
  | PyVal.bool b => b
  | PyVal.int n => decide (n ≠ 0)
  | PyVal.str s => decide (s ≠ "")

/-- Python `str(x)` for an optional string (`str(None) = "None"`). -/
def pyStrOfOpt : Option String → String
  | Option.none => "None"
  | some s => s

/-- ASCII lowering of one character, modelling `str.lower()` on the ASCII
names the engine compares (executable in the kernel, unlike
`String.toLower`). -/
def lowerChar (c : Char) : Char :=
  let n := c.toNat
  if 65 ≤ n ∧ n ≤ 90 then Char.ofNat (n + 32) else c

/-- `s.lower()` on strings. -/
def strLower (s : String) : String := String.mk (s.data.map lowerChar)

/-- Insertion-ordered association list modelling a Python `dict`. -/
abbrev AList (κ : Type) (α : Type) := List (κ × α)

/-- `d.get(k)` / `d[k]` lookup: first binding of the key, if any. -/
def dictGet {κ α : Type} [DecidableEq κ] (d : AList κ α) (k : κ) : Option α :=
  match d with
  | [] => Option.none
  | (k', v) :: rest => if k' = k then some v else dictGet rest k

/-- `d[k] = v`: replace the value at an existing key in place, else append
the new binding at the end (Python insertion-order semantics). -/
def dictSet {κ α : Type} [DecidableEq κ] (d : AList κ α) (k : κ) (v : α) : AList κ α :=
  match d with
  | [] => [(k, v)]
  | (k', v') :: rest => if k' = k then (k', v) :: rest else (k', v') :: dictSet rest k v

/-- `del d[k]`: drop the first binding of the key. -/
def dictDel {κ α : Type} [DecidableEq κ] (d : AList κ α) (k : κ) : AList κ α :=
  match d with
  | [] => []
  | (k', v') :: rest => if k' = k then rest else (k', v') :: dictDel rest k

/-- `k in d` membership test. -/
def dictContains {κ α : Type} [DecidableEq κ] (d : AList κ α) (k : κ) : Bool :=
  (dictGet d k).isSome

/-- `global_flags` dictionaries.  Keys are `Option String` because
`use_item`'s `set_flag` effect writes `state.global_flags[effect_data.get("flag")]`,
which stores under the key `None` when the `"flag"` parameter is absent. -/
abbrev Flags := AList (Option String) PyVal

/-- `flags.get(k)` with Python's `None` default. -/
def flagsGet (d : Flags) (k : Option String) : PyVal :=
  (dictGet d k).getD PyVal.none

/-- Python truthiness of an optional string (`not target_room_id` is true for
both a missing key and an empty-string value). -/
def strFalsy : Option String → Bool
  | Option.none => true
  | some s => decide (s = "")

/-- The `access_requirements` dict of a room.  Its recognized keys are
`required_items` and `required_flags`; a field is `none` when the key is
absent.  Python's dict truthiness (`if target_room.access_requirements:` /
`if not requirements:`) is `isTruthy` below. -/
structure AccessReq where
  required_items : Option (List String) := Option.none
  required_flags : Option Flags := Option.none
deriving DecidableEq, Repr

/-- Truthiness (non-emptiness) of the requirements dict. -/
def AccessReq.isTruthy (r : AccessReq) : Bool :=
  r.required_items.isSome || r.required_flags.isSome

/-- One `effect_data` dict inside `use_effects`.  Optional fields are `none`
when the corresponding key is absent; `consumed` models
`effect_data.get("consumed", False)` (any Python value, tested for
truthiness), `value` models `effect_data.get("value", True)`. -/
structure EffectData where
  room_id : Option String := Option.none
  flag : Option String := Option.none
  value : Option PyVal := Option.none
  consumed : PyVal := PyVal.bool false
deriving DecidableEq, Repr

/-- One node of an NPC dialogue tree: the dict stored at
`dialogue_tree[state_key]`, with optional `"text"` and `"next_state"` keys. -/
structure DialogueNode where
  text : Option String := Option.none
  next_state : Option String := Option.none
deriving DecidableEq, Repr

/-- `models.entities.Room`. -/
structure Room where
  id : String
  name : String
  description : String
  connections : AList String String
  items : List String
  npcs : List String
  state_flags : AList String PyVal
  access_requirements : AccessReq := {}
deriving DecidableEq, Repr

/-- `models.entities.Item`. -/
structure Item where
  id : String
  name : String
  description : String
  location : String
  takeable : Bool
  useable : Bool
  properties : AList String PyVal
  use_effects : AList String EffectData := []
deriving DecidableEq, Repr

/-- `models.entities.NPC`. -/
structure NPC where
  id : String
  name : String
  description : String
  location : String
  dialogue_state : String
  dialogue_tree : AList String DialogueNode
  inventory : List String
deriving DecidableEq, Repr

/-- `models.entities.Player`. -/
structure Player where
  id : String
  name : String
  location : String
  inventory : List String
  stats : AList String PyVal := []
deriving DecidableEq, Repr

/-- `models.entities.LogEntry`. -/
structure LogEntry where
  timestamp : String
  turn : Int
  action : String
  player_id : String
  message : String
  state_changes : AList String PyVal := []
deriving DecidableEq, Repr

/-- `models.entities.ActionResult`. -/
structure ActionResult where
  success : Bool
  message : String
  state_changes : AList String PyVal
  triggered_events : List String
  game_ended : Bool := false
deriving DecidableEq, Repr

/-- A failed `ActionResult` with empty `state_changes` and
`triggered_events`, as built on every failure path of the engine. -/
def ActionResult.failWith (msg : String) : ActionResult :=
  { success := false, message := msg, state_changes := [], triggered_events := [] }

/-- `models.game_state.GameState`.  The `datetime` fields are modelled as
abstract integer instants; every mutating engine method takes the current
instant `now` and stores it into `last_action_at`. -/
structure GameState where
  game_id : String
  title : String
  description : String
  current_turn : Int
  active : Bool
  players : AList String Player
  rooms : AList String Room
  items : AList String Item
  npcs : AList String NPC
  global_flags : Flags
  win_conditions : List (AList String PyVal)
  event_log : List LogEntry
  created_at : Int
  last_action_at : Int
deriving DecidableEq, Repr

/-! ## Engine operations (`src/game_engine.py`) -/

/-- `GameEngine._check_access_requirements`. -/
def checkAccessRequirements (state : GameState) (player_id : String) (req : AccessReq) : Bool :=
  if !req.isTruthy then true
  else
    match dictGet state.players player_id with
    | Option.none => false
    | some player =>
      let itemsOk :=
        match req.required_items with
        | Option.none => true
        | some required_items =>
          let player_items := player.inventory.filterMap
            (fun iid => (dictGet state.items iid).map (fun it => (strLower it.name)))
          required_items.all (fun r => player_items.contains (strLower r))
      let flagsOk :=
        match req.required_flags with
        | Option.none => true
        | some required_flags =>
          required_flags.all (fun kv => flagsGet state.global_flags kv.1 = kv.2)
      itemsOk && flagsOk

/-- The item-search loop shared by `take_item`, `drop_item` and `use_item`:
scan `ids` in order for the first id that is present in the item table and
whose name matches `item_name` case-insensitively. -/
def findNamedItem (items : AList String Item) (ids : List String) (item_name : String) :
    Option (String × Item) :=
  ids.findSome? (fun iid =>
    match dictGet items iid with
    | some cand =>
      if (strLower cand.name) = (strLower item_name) then some (iid, cand) else Option.none
    | Option.none => Option.none)

/-- The NPC-search loop of `talk_to_npc`. -/
def findNamedNpc (npcs : AList String NPC) (ids : List String) (npc_name : String) :
    Option (String × NPC) :=
  ids.findSome? (fun nid =>
    match dictGet npcs nid with
    | some cand =>
      if (strLower cand.name) = (strLower npc_name) then some (nid, cand) else Option.none
    | Option.none => Option.none)

/-- `GameEngine.move_player`.  The second component is the state passed to
`save_game_state`, `none` when the method returned without saving. -/
def movePlayer (state? : Option GameState) (player_id direction : String) (now : Int) :
    ActionResult × Option GameState :=
  match state? with
  | Option.none => (ActionResult.failWith "Game not found or inactive", Option.none)
  | some state =>
    if !state.active then (ActionResult.failWith "Game not found or inactive", Option.none)
    else
      match dictGet state.players player_id with
      | Option.none => (ActionResult.failWith "Player not found", Option.none)
      | some player =>
        match dictGet state.rooms player.location with
        | Option.none => (ActionResult.failWith "Current room not found", Option.none)
        | some current_room =>
          let target_room_id? := dictGet current_room.connections (strLower direction)
          if strFalsy target_room_id? then
            (ActionResult.failWith ("You cannot go " ++ direction ++ " from here."), Option.none)
          else
            match target_room_id? with
            | Option.none =>
              (ActionResult.failWith ("You cannot go " ++ direction ++ " from here."), Option.none)
            | some target_room_id =>
              match dictGet state.rooms target_room_id with
              | Option.none =>
                (ActionResult.failWith "Target room not found", Option.none)
              | some target_room =>
                if target_room.access_requirements.isTruthy &&
                    !checkAccessRequirements state player_id target_room.access_requirements then
                  (ActionResult.failWith "You cannot access that room yet.", Option.none)
                else
                  let player' := { player with location := target_room_id }
                  let state' := { state with
                    players := dictSet state.players player_id player'
                    current_turn := state.current_turn + 1
                    last_action_at := now }
                  ({ success := true
                     message := "You go " ++ direction ++ " to " ++ target_room.name ++ ".\n" ++
                       target_room.description
                     state_changes := [("player_location", PyVal.str target_room_id)]
                     triggered_events := [] }, some state')

/-- `GameEngine.take_item`. -/
def takeItem (state? : Option GameState) (player_id item_name : String) (now : Int) :
    ActionResult × Option GameState :=
  match state? with
  | Option.none => (ActionResult.failWith "Game not found or inactive", Option.none)
  | some state =>
    if !state.active then (ActionResult.failWith "Game not found or inactive", Option.none)
    else
      match dictGet state.players player_id with
      | Option.none => (ActionResult.failWith "Player not found", Option.none)
      | some player =>
        match dictGet state.rooms player.location with
        | Option.none => (ActionResult.failWith "Current room not found", Option.none)
        | some current_room =>
          match findNamedItem state.items current_room.items item_name with
          | Option.none =>
            (ActionResult.failWith ("There is no " ++ item_name ++ " here."), Option.none)
          | some (item_id, item) =>
            if !item.takeable then
              (ActionResult.failWith ("You cannot take the " ++ item_name ++ "."), Option.none)
            else
              let current_room' := { current_room with items := current_room.items.erase item_id }
              let player' := { player with inventory := player.inventory ++ [item_id] }
              let item' := { item with location := player_id }
              let state' := { state with
                rooms := dictSet state.rooms player.location current_room'
                players := dictSet state.players player_id player'
                items := dictSet state.items item_id item'
                current_turn := state.current_turn + 1
                last_action_at := now }
              ({ success := true
                 message := "You take the " ++ item.name ++ "."
                 state_changes := [("item_location", PyVal.str player_id)]
                 triggered_events := [] }, some state')

/-- `GameEngine.drop_item`. -/
def dropItem (state? : Option GameState) (player_id item_name : String) (now : Int) :
    ActionResult × Option GameState :=
  match state? with
  | Option.none => (ActionResult.failWith "Game not found or inactive", Option.none)
  | some state =>
    if !state.active then (ActionResult.failWith "Game not found or inactive", Option.none)
    else
      match dictGet state.players player_id with
      | Option.none => (ActionResult.failWith "Player not found", Option.none)
      | some player =>
        match dictGet state.rooms player.location with
        | Option.none => (ActionResult.failWith "Current room not found", Option.none)
        | some current_room =>
          match findNamedItem state.items player.inventory item_name with
          | Option.none =>
            (ActionResult.failWith ("You don't have a " ++ item_name ++ "."), Option.none)
          | some (item_id, item) =>
            let player' := { player with inventory := player.inventory.erase item_id }
            let current_room' := { current_room with items := current_room.items ++ [item_id] }
            let item' := { item with location := current_room.id }
            let state' := { state with
              rooms := dictSet state.rooms player.location current_room'
              players := dictSet state.players player_id player'
              items := dictSet state.items item_id item'
              current_turn := state.current_turn + 1
              last_action_at := now }
            ({ success := true
               message := "You drop the " ++ item.name ++ "."
               state_changes := [("item_location", PyVal.str current_room.id)]
               triggered_events := [] }, some state')

/-- The mutable context threaded through `use_item`'s effect loop: the parts
of the in-memory state (and the result being accumulated) that the loop body
mutates. -/
structure UseCtx where
  message : String
  state_changes : AList String PyVal
  triggered_events : List String
  rooms : AList String Room
  global_flags : Flags
  inventory : List String
  items : AList String Item
deriving DecidableEq, Repr

/-- One iteration of `use_item`'s `for effect_type, effect_data in
item.use_effects.items()` loop.  `item_name_disp` is the (captured) used
item's `name`; `item_id` its id. -/
def applyUseEffect (item_name_disp item_id : String) (ctx : UseCtx)
    (eff : String × EffectData) : UseCtx :=
  let effect_type := eff.1
  let effect_data := eff.2
  if effect_type = "unlock_room" then
    match effect_data.room_id with
    | some rid =>
      match dictGet ctx.rooms rid with
      | some room =>
        { ctx with
          rooms := dictSet ctx.rooms rid { room with access_requirements := {} }
          message := ctx.message ++ " The " ++ item_name_disp ++ " unlocks access to new areas."
          triggered_events := ctx.triggered_events ++ ["unlocked_" ++ rid] }
      | Option.none => ctx
    | Option.none => ctx
  else if effect_type = "set_flag" then
    let flag_value := effect_data.value.getD (PyVal.bool true)
    { ctx with
      global_flags := dictSet ctx.global_flags effect_data.flag flag_value
      state_changes :=
        dictSet ctx.state_changes ("flag_" ++ pyStrOfOpt effect_data.flag) flag_value }
  else if effect_type = "consume" then
    if effect_data.consumed.truthy then
      { ctx with
        inventory := ctx.inventory.erase item_id
        items := dictDel ctx.items item_id
        message := ctx.message ++ " The " ++ item_name_disp ++ " is consumed." }
    else ctx
  else ctx

/-- `GameEngine.use_item`.  The `target` parameter is only interpolated into
the log message in the source, so it does not appear in the produced result
or state. -/
def useItem (state? : Option GameState) (player_id item_name : String)
    (target : Option String) (now : Int) : ActionResult × Option GameState :=
  match state? with
  | Option.none => (ActionResult.failWith "Game not found or inactive", Option.none)
  | some state =>
    if !state.active then (ActionResult.failWith "Game not found or inactive", Option.none)
    else
      match dictGet state.players player_id with
      | Option.none => (ActionResult.failWith "Player not found", Option.none)
      | some player =>
        match findNamedItem state.items player.inventory item_name with
        | Option.none =>
          (ActionResult.failWith ("You don't have a " ++ item_name ++ "."), Option.none)
        | some (item_id, item) =>
          if !item.useable then
            (ActionResult.failWith ("You cannot use the " ++ item_name ++ "."), Option.none)
          else
            let ctx0 : UseCtx :=
              { message := "You use the " ++ item.name ++ "."
                state_changes := []
                triggered_events := []
                rooms := state.rooms
                global_flags := state.global_flags
                inventory := player.inventory
                items := state.items }
            let ctx := item.use_effects.foldl (applyUseEffect item.name item_id) ctx0
            let state' := { state with
              rooms := ctx.rooms
              global_flags := ctx.global_flags
              items := ctx.items
              players := dictSet state.players player_id { player with inventory := ctx.inventory }
              current_turn := state.current_turn + 1
              last_action_at := now }
            ({ success := true
               message := ctx.message
               state_changes := ctx.state_changes
               triggered_events := ctx.triggered_events }, some state')

/-- `GameEngine.talk_to_npc`.  The free-text `message` parameter is bound
but, exactly as in the source, never consulted. -/
def talkToNpc (state? : Option GameState) (player_id npc_name : String)
    (message : Option String) (now : Int) : ActionResult × Option GameState :=
  match state? with
  | Option.none => (ActionResult.failWith "Game not found or inactive", Option.none)
  | some state =>
    if !state.active then (ActionResult.failWith "Game not found or inactive", Option.none)
    else
      match dictGet state.players player_id with
      | Option.none => (ActionResult.failWith "Player not found", Option.none)
      | some player =>
        match dictGet state.rooms player.location with
        | Option.none => (ActionResult.failWith "Current room not found", Option.none)
        | some current_room =>
          match findNamedNpc state.npcs current_room.npcs npc_name with
          | Option.none =>
            (ActionResult.failWith ("There is no " ++ npc_name ++ " here."), Option.none)
          | some (npc_id, npc) =>
            let response_state :=
              match dictGet npc.dialogue_tree npc.dialogue_state with
              | some node =>
                (node.text.getD "Hello there!", node.next_state.getD npc.dialogue_state)
              | Option.none => ("Hello there!", npc.dialogue_state)
            let npc' := { npc with dialogue_state := response_state.2 }
            let state' := { state with
              npcs := dictSet state.npcs npc_id npc'
              current_turn := state.current_turn + 1
              last_action_at := now }
            ({ success := true
               message := npc.name ++ ": " ++ response_state.1
               state_changes := [("npc_dialogue_state", PyVal.str response_state.2)]
               triggered_events := [] }, some state')

/-- One entry of the list returned by `check_inventory`. -/
structure InventoryEntry where
  name : String
  description : String
  useable : Bool
deriving DecidableEq, Repr

/-- `GameEngine.check_inventory` (read-only, never saves). -/
def checkInventory (state? : Option GameState) (player_id : String) : List InventoryEntry :=
  match state? with
  | Option.none => []
  | some state =>
    if !state.active then []
    else
      match dictGet state.players player_id with
      | Option.none => []
      | some player =>
        player.inventory.filterMap (fun iid =>
          (dictGet state.items iid).map
            (fun it => { name := it.name, description := it.description, useable := it.useable }))

/-- The summary dict built by `end_game`.  `duration` models
`str(state.last_action_at - state.created_at)` as the integer difference of
the abstract instants. -/
structure GameSummary where
  game_id : String
  title : String
  outcome : String
  total_turns : Int
  duration : Int
  final_player_location : String
  items_collected : Nat
  major_events : List String
deriving DecidableEq, Repr

/-- The return value of `end_game`: either the `{"error": ...}` dict or a
summary dict. -/
inductive EndGameResult where
  | error (msg : String)
  | summary (s : GameSummary)
deriving DecidableEq, Repr

/-- `GameEngine.end_game`.  `game_id` is the id the state was loaded under,
`history` the result of `state_manager.get_game_history(game_id)`. -/
def endGame (game_id : String) (state? : Option GameState) (history : List LogEntry)
    (outcome : String) (now : Int) : EndGameResult × Option GameState :=
  match state? with
  | Option.none => (EndGameResult.error "Game not found", Option.none)
  | some state =>
    let state' := { state with active := false, last_action_at := now }
    let summary : GameSummary :=
      { game_id := game_id
        title := state'.title
        outcome := outcome
        total_turns := state'.current_turn
        duration := state'.last_action_at - state'.created_at
        final_player_location :=
          match state'.players with
          | [] => ""
          | kv :: _ => kv.2.location
        items_collected :=
          match state'.players with
          | [] => 0
          | kv :: _ => kv.2.inventory.length
        major_events :=
          ((history.filter (fun e =>
            e.action = "use" || e.action = "talk" || e.action = "start_game")).map
            (fun e => e.message)).take 10 }
    (EndGameResult.summary summary, some state')

/-- The scenario-definition dict consumed by `start_new_game`; a field is
`none` when the key is absent.  Room/item/npc entries are the already
pydantic-validated entities (`Room(**room_data)` etc.); a validation failure
there raises, which is the `except` path returning `""`. -/
structure ScenarioConfig where
  title : Option String := Option.none
  description : Option String := Option.none
  global_flags : Option Flags := Option.none
  win_conditions : Option (List (AList String PyVal)) := Option.none
  rooms : Option (List Room) := Option.none
  items : Option (List Item) := Option.none
  npcs : Option (List NPC) := Option.none
  start_room : Option String := Option.none
deriving DecidableEq, Repr

/-- `GameEngine.start_new_game`.  `game_id` is the freshly generated
`uuid4` string, `saveOk` the boolean returned by
`state_manager.save_game_state` — which the source never inspects.  Returns
the game id handed back to the caller together with the state passed to
`save_game_state`. -/
def startNewGame (game_id : String) (cfg : ScenarioConfig) (player_name : String)
    (now : Int) (saveOk : Bool) : String × Option GameState :=
  let rooms := (cfg.rooms.getD []).foldl (fun d r => dictSet d r.id r) []
  let items := (cfg.items.getD []).foldl (fun d it => dictSet d it.id it) []
  let npcs := (cfg.npcs.getD []).foldl (fun d n => dictSet d n.id n) []
  let start_room := cfg.start_room.getD
    (match rooms with
     | [] => ""
     | kv :: _ => kv.1)
  let player : Player :=
    { id := "player_1", name := player_name, location := start_room, inventory := [], stats := [] }
  let state : GameState :=
    { game_id := game_id
      title := cfg.title.getD "Text Adventure"
      description := cfg.description.getD "A mysterious adventure awaits..."
      current_turn := 0
      active := true
      players := [("player_1", player)]
      rooms := rooms
      items := items
      npcs := npcs
      global_flags := cfg.global_flags.getD []
      win_conditions := cfg.win_conditions.getD []
      event_log := []
      created_at := now
      last_action_at := now }
  -- the boolean result of the save is dropped on the floor by the source
  let _ := saveOk
  (game_id, some state)

/-! ## The container-sync invariant (§3 of the spec, claim C4)

An item is "held" by the room whose `items` list contains it or the player
whose `inventory` contains it.  `occCount` counts, with multiplicity, how
often an item id occurs across all room `items` lists and player
inventories; the invariant demands exactly one occurrence, located at the
container keyed by the item's `location` field. -/

/-- Total number of occurrences of `iid` across all room item lists and all
player inventories. -/
def occCount (rooms : AList String Room) (players : AList String Player) (iid : String) : Nat :=
  (rooms.map (fun kv => kv.2.items.count iid)).sum +
  (players.map (fun kv => kv.2.inventory.count iid)).sum

/-- Whether the container stored under key `loc` (a room or a player) lists
`iid`. -/
def heldAt (rooms : AList String Room) (players : AList String Player) (loc iid : String) :
    Bool :=
  (match dictGet rooms loc with
   | some r => decide (iid ∈ r.items)
   | Option.none => false) ||
  (match dictGet players loc with
   | some p => decide (iid ∈ p.inventory)
   | Option.none => false)

/-- Structural well-formedness that every state built by the engine has:
the room/player/item tables have no duplicate keys (they model Python
dicts) and every room is stored under its own `id` (as `start_new_game`
arranges with `game_state.rooms[room.id] = room`). -/
def wellKeyedCore (rooms : AList String Room) (players : AList String Player)
    (items : AList String Item) : Prop :=
  (rooms.map Prod.fst).Nodup ∧ (players.map Prod.fst).Nodup ∧ (items.map Prod.fst).Nodup ∧
  (∀ kv ∈ rooms, (kv.2 : Room).id = kv.1)

/-- The container-sync invariant on the three tables: every item id in the
item table occurs exactly once across all containers, and that one
container is the one keyed by the item's `location`. -/
def containerSyncCore (rooms : AList String Room) (players : AList String Player)
    (items : AList String Item) : Prop :=
  ∀ kv ∈ items, occCount rooms players kv.1 = 1 ∧
    heldAt rooms players (kv.2 : Item).location kv.1 = true

/-- `wellKeyedCore` on a game state. -/
def wellKeyed (s : GameState) : Prop :=
  wellKeyedCore s.rooms s.players s.items

/-- The container-sync invariant on a game state. -/
def containerSync (s : GameState) : Prop :=
  containerSyncCore s.rooms s.players s.items

/-! ## The room-entry gate as the specification words it (claim C2)

`specAccessOk` is modelled from the claim's sentence, for comparison with
the source's `checkAccessRequirements`: entry is allowed when the
requirements object is absent/empty, or every required item name matches
the name of some inventory item case-insensitively and, for every required
flag pair, `global_flags` maps the flag to exactly that value (i.e. the
key is present with that value).  `amendedAccessOk` replaces the flag
condition by the comparison the source actually performs,
`global_flags.get(flag) == value` with a `None` default. -/

/-- The gate predicate as the claim states it. -/
def specAccessOk (state : GameState) (player : Player) (req : AccessReq) : Prop :=
  req.isTruthy = false ∨
  ((∀ r ∈ req.required_items.getD [], ∃ iid ∈ player.inventory,
      (dictGet state.items iid).map (fun it => (strLower it.name)) = some (strLower r)) ∧
   (∀ kv ∈ req.required_flags.getD [], dictGet state.global_flags kv.1 = some kv.2))

/-- The gate predicate with the flag condition the code implements: the
lookup defaults to `None` for a missing flag, so a required value of `None`
is satisfied by an absent flag. -/
def amendedAccessOk (state : GameState) (player : Player) (req : AccessReq) : Prop :=
  req.isTruthy = false ∨
  ((∀ r ∈ req.required_items.getD [], ∃ iid ∈ player.inventory,
      (dictGet state.items iid).map (fun it => (strLower it.name)) = some (strLower r)) ∧
   (∀ kv ∈ req.required_flags.getD [], flagsGet state.global_flags kv.1 = kv.2))

/-! ## Concrete states used by counterexamples and witnesses -/

/-- A minimal ended game state. -/
def exInactive : GameState :=
  { game_id := "g"
    title := "t"
    description := "d"
    current_turn := 3
    active := false
    players := []
    rooms := []
    items := []
    npcs := []
    global_flags := []
    win_conditions := []
    event_log := []
    created_at := 0
    last_action_at := 0 }

/-- Start room used by several examples. -/
def exRoomA : Room :=
  { id := "a"
    name := "A"
    description := "start room"
    connections := [("north", "b")]
    items := []
    npcs := []
    state_flags := [] }

/-- A gated room whose `required_flags` demands the value `None` for flag
`"f"`. -/
def exRoomGateNone : Room :=
  { id := "b"
    name := "B"
    description := "gated room"
    connections := []
    items := []
    npcs := []
    state_flags := []
    access_requirements := { required_flags := some [(some "f", PyVal.none)] } }

/-- A gated room demanding `global_flags["f"] == True`. -/
def exRoomGateTrue : Room :=
  { exRoomGateNone with
    access_requirements := { required_flags := some [(some "f", PyVal.bool true)] } }

/-- The single player created by `start_new_game`. -/
def exPlayer : Player :=
  { id := "player_1", name := "P", location := "a", inventory := [] }

/-- Base active game state: one player in room `"a"` with a north exit to
room `"b"`. -/
def exBase : GameState :=
  { game_id := "g"
    title := "t"
    description := "d"
    current_turn := 0
    active := true
    players := [("player_1", exPlayer)]
    rooms := [("a", exRoomA), ("b", exRoomGateNone)]
    items := []
    npcs := []
    global_flags := []
    win_conditions := []
    event_log := []
    created_at := 0
    last_action_at := 0 }

/-- State whose north room is gated on flag `"f" = None` while
`global_flags` has no `"f"` entry at all. -/
def exGateNone : GameState := exBase

/-- State whose north room is gated on `"f" = True` and whose flags satisfy
it. -/
def exGateTrueSat : GameState :=
  { exBase with
    rooms := [("a", exRoomA), ("b", exRoomGateTrue)]
    global_flags := [(some "f", PyVal.bool true)] }

/-- A takeable rock lying in room `"a"`. -/
def exRock : Item :=
  { id := "i1"
    name := "rock"
    description := "a rock"
    location := "a"
    takeable := true
    useable := false
    properties := [] }

/-- A second rock with the same name, already carried by the player. -/
def exRockCarried : Item :=
  { exRock with id := "i0", location := "player_1" }

/-- State with one takeable rock in the player's room and an empty
inventory; it satisfies the container-sync invariant. -/
def exOneRock : GameState :=
  { exBase with
    rooms := [("a", { exRoomA with items := ["i1"] }), ("b", exRoomGateNone)]
    items := [("i1", exRock)] }

/-- The state stored after `take("rock")` succeeds on `exOneRock`. -/
def exOneRockTaken : GameState :=
  { exBase with
    rooms := [("a", exRoomA), ("b", exRoomGateNone)]
    players := [("player_1", { exPlayer with inventory := ["i1"] })]
    items := [("i1", { exRock with location := "player_1" })]
    current_turn := 1
    last_action_at := 1 }

/-- State where the player already carries a rock named like the one lying
in the room (`take` then `drop` resolve different items). -/
def exTwoRocks : GameState :=
  { exBase with
    players := [("player_1", { exPlayer with inventory := ["i0"] })]
    rooms := [("a", { exRoomA with items := ["i1"] }), ("b", exRoomGateNone)]
    items := [("i0", exRockCarried), ("i1", exRock)] }

/-- A useable potion with a `consume` effect, carried by the player. -/
def exPotion : Item :=
  { id := "p1"
    name := "potion"
    description := "a potion"
    location := "player_1"
    takeable := true
    useable := true
    properties := []
    use_effects := [("consume", { consumed := PyVal.bool true })] }

/-- A second potion with the same name and no effects. -/
def exPotionSpare : Item :=
  { exPotion with id := "p2", use_effects := [] }

/-- State where the player carries one consumable potion. -/
def exOnePotion : GameState :=
  { exBase with
    players := [("player_1", { exPlayer with inventory := ["p1"] })]
    items := [("p1", exPotion)] }

/-- State where the player carries the consumable potion plus a spare with
the same name. -/
def exTwoPotions : GameState :=
  { exBase with
    players := [("player_1", { exPlayer with inventory := ["p1", "p2"] })]
    items := [("p1", exPotion), ("p2", exPotionSpare)] }

/-- A one-room scenario definition. -/
def exScenario : ScenarioConfig :=
  { title := some "t", rooms := some [{ exRoomA with connections := [] }] }

/-- The state `take_item` saves on its success path, named for reuse in
proofs: the item id moves from the current room's list to the end of the
player's inventory and the item's `location` becomes the player id. -/
def takeResultState (s : GameState) (pid : String) (p : Player) (room : Room)
    (iid : String) (itm : Item) (now : Int) : GameState :=
  { s with
    rooms := dictSet s.rooms p.location { room with items := room.items.erase iid }
    players := dictSet s.players pid { p with inventory := p.inventory ++ [iid] }
    items := dictSet s.items iid { itm with location := pid }
    current_turn := s.current_turn + 1
    last_action_at := now }

/-- The state `drop_item` saves on its success path: the item id moves from
the player's inventory to the end of the room's list and the item's
`location` becomes the room's `id` field. -/
def dropResultState (s : GameState) (pid : String) (p : Player) (room : Room)
    (iid : String) (itm : Item) (now : Int) : GameState :=
  { s with
    rooms := dictSet s.rooms p.location { room with items := room.items ++ [iid] }
    players := dictSet s.players pid { p with inventory := p.inventory.erase iid }
    items := dictSet s.items iid { itm with location := room.id }
    current_turn := s.current_turn + 1
    last_action_at := now }

/-- The loop context `use_item` starts from: the accumulated result fields
are initialized and the mutable state parts are the loaded ones. -/
def useCtx0 (s : GameState) (p : Player) (itm : Item) : UseCtx :=
  { message := "You use the " ++ itm.name ++ "."
    state_changes := []
    triggered_events := []
    rooms := s.rooms
    global_flags := s.global_flags
    inventory := p.inventory
    items := s.items }

/-- The state `use_item` saves on its success path, given the context the
effect loop ended with. -/
def useResultState (s : GameState) (pid : String) (p : Player) (ctx : UseCtx) (now : Int) :
    GameState :=
  { s with
    rooms := ctx.rooms
    global_flags := ctx.global_flags
    items := ctx.items
    players := dictSet s.players pid { p with inventory := ctx.inventory }
    current_turn := s.current_turn + 1
    last_action_at := now }

/-! ## Association-list (Python dict) lemmas -/

theorem dictGet_dictSet_self {κ α : Type} [DecidableEq κ] (d : AList κ α) (k : κ) (v : α) :
    dictGet (dictSet d k v) k = some v := by
  induction d with
  | nil => simp [dictSet, dictGet]
  | cons kv rest ih =>
    obtain ⟨a, b⟩ := kv
    by_cases h : a = k
    · subst h
      simp [dictSet, dictGet]
    · simp [dictSet, dictGet, h, ih]

theorem dictGet_dictSet_ne {κ α : Type} [DecidableEq κ] (d : AList κ α) {k k' : κ} (v : α)
    (h : k ≠ k') : dictGet (dictSet d k v) k' = dictGet d k' := by
  induction d with
  | nil => simp [dictSet, dictGet, h]
  | cons kv rest ih =>
    obtain ⟨a, b⟩ := kv
    by_cases ha : a = k
    · subst ha
      simp [dictSet, dictGet, h]
    · simp [dictSet, dictGet, ha, ih]

theorem dictGet_mem {κ α : Type} [DecidableEq κ] {d : AList κ α} {k : κ} {v : α}
    (h : dictGet d k = some v) : (k, v) ∈ d := by
  induction d with
  | nil => simp [dictGet] at h
  | cons kv rest ih =>
    obtain ⟨a, b⟩ := kv
    by_cases ha : a = k
    · subst ha
      simp [dictGet] at h
      simp [h]
    · simp [dictGet, ha] at h
      exact List.mem_cons_of_mem _ (ih h)

theorem dictGet_eq_none_of_not_mem {κ α : Type} [DecidableEq κ] {d : AList κ α} {k : κ}
    (h : k ∉ d.map Prod.fst) : dictGet d k = Option.none := by
  induction d with
  | nil => simp [dictGet]
  | cons kv rest ih =>
    obtain ⟨a, b⟩ := kv
    have ha : a ≠ k := by
      intro hak
      exact h (by simp [hak])
    have hrest : k ∉ rest.map Prod.fst := by
      intro hk
      exact h (by simp [hk])
    simp [dictGet, ha, ih hrest]

theorem dictSet_keys {κ α : Type} [DecidableEq κ] {d : AList κ α} {k : κ} (v' : α)
    (h : (dictGet d k).isSome = true) : (dictSet d k v').map Prod.fst = d.map Prod.fst := by
  induction d with
  | nil => simp [dictGet] at h
  | cons kv rest ih =>
    obtain ⟨a, b⟩ := kv
    by_cases ha : a = k
    · subst ha
      simp [dictSet]
    · simp [dictGet, ha] at h
      simp [dictSet, ha, ih h]

theorem dictSet_self {κ α : Type} [DecidableEq κ] {d : AList κ α} {k : κ} {v : α}
    (h : dictGet d k = some v) : dictSet d k v = d := by
  induction d with
  | nil => simp [dictGet] at h
  | cons kv rest ih =>
    obtain ⟨a, b⟩ := kv
    by_cases ha : a = k
    · subst ha
      simp [dictGet] at h
      simp [dictSet, h]
    · simp [dictGet, ha] at h
      simp [dictSet, ha, ih h]

theorem mem_dictSet {κ α : Type} [DecidableEq κ] {d : AList κ α} {k : κ} {v : α} {kv : κ × α}
    (hnd : (d.map Prod.fst).Nodup) (hm : kv ∈ dictSet d k v) :
    kv = (k, v) ∨ (kv ∈ d ∧ kv.1 ≠ k) := by
  induction d with
  | nil =>
    simp [dictSet] at hm
    exact Or.inl hm
  | cons ab rest ih =>
    obtain ⟨a, b⟩ := ab
    rw [List.map_cons, List.nodup_cons] at hnd
    obtain ⟨hna, hndr⟩ := hnd
    by_cases ha : a = k
    · subst ha
      simp [dictSet] at hm
      rcases hm with hm | hm
      · exact Or.inl (by simp [hm])
      · refine Or.inr ⟨List.mem_cons_of_mem _ hm, fun hk => hna ?_⟩
        · have := List.mem_map_of_mem Prod.fst hm
          rw [hk] at this
          exact this
    · simp [dictSet, ha] at hm
      rcases hm with hm | hm
      · exact Or.inr ⟨by simp [hm], by simp [hm, ha]⟩
      · rcases ih hndr hm with h | h
        · exact Or.inl h
        · exact Or.inr ⟨List.mem_cons_of_mem _ h.1, h.2⟩

theorem mem_dictSet_of_ne {κ α : Type} [DecidableEq κ] {d : AList κ α} {k : κ} {v : α}
    {kv : κ × α} (hm : kv ∈ d) (hne : kv.1 ≠ k) : kv ∈ dictSet d k v := by
  induction d with
  | nil => simp at hm
  | cons ab rest ih =>
    obtain ⟨a, b⟩ := ab
    by_cases ha : a = k
    · subst ha
      simp [dictSet]
      simp at hm
      rcases hm with hm | hm
      · exact absurd (by simp [hm]) hne
      · exact Or.inr hm
    · simp [dictSet, ha]
      simp at hm
      rcases hm with hm | hm
      · exact Or.inl hm
      · exact Or.inr (ih hm)

theorem dictDel_keys {κ α : Type} [DecidableEq κ] (d : AList κ α) (k : κ) :
    (dictDel d k).map Prod.fst = (d.map Prod.fst).erase k := by
  induction d with
  | nil => simp [dictDel]
  | cons ab rest ih =>
    obtain ⟨a, b⟩ := ab
    by_cases ha : a = k
    · subst ha
      simp [dictDel, List.erase_cons]
    · simp [dictDel, ha, List.erase_cons, Ne.symm ha, ih]

theorem mem_dictDel {κ α : Type} [DecidableEq κ] {d : AList κ α} {k : κ} {kv : κ × α}
    (hm : kv ∈ dictDel d k) : kv ∈ d := by
  induction d with
  | nil => simp [dictDel] at hm
  | cons ab rest ih =>
    obtain ⟨a, b⟩ := ab
    by_cases ha : a = k
    · subst ha
      simp [dictDel] at hm
      exact List.mem_cons_of_mem _ hm
    · simp [dictDel, ha] at hm
      rcases hm with hm | hm
      · simp [hm]
      · exact List.mem_cons_of_mem _ (ih hm)

theorem mem_dictDel_ne {κ α : Type} [DecidableEq κ] {d : AList κ α} {k : κ} {kv : κ × α}
    (hnd : (d.map Prod.fst).Nodup) (hm : kv ∈ dictDel d k) : kv.1 ≠ k := by
  induction d with
  | nil => simp [dictDel] at hm
  | cons ab rest ih =>
    obtain ⟨a, b⟩ := ab
    rw [List.map_cons, List.nodup_cons] at hnd
    obtain ⟨hna, hndr⟩ := hnd
    by_cases ha : a = k
    · subst ha
      simp [dictDel] at hm
      intro hk
      have := List.mem_map_of_mem Prod.fst hm
      rw [hk] at this
      exact hna this
    · simp [dictDel, ha] at hm
      rcases hm with hm | hm
      · simp [hm, ha]
      · exact ih hndr hm

theorem dictGet_dictDel_ne {κ α : Type} [DecidableEq κ] (d : AList κ α) {k k' : κ}
    (h : k ≠ k') : dictGet (dictDel d k) k' = dictGet d k' := by
  induction d with
  | nil => simp [dictDel]
  | cons ab rest ih =>
    obtain ⟨a, b⟩ := ab
    by_cases ha : a = k
    · subst ha
      simp [dictDel, dictGet, h]
    · simp [dictDel, dictGet, ha, ih]

theorem sum_map_dictSet {κ α : Type} [DecidableEq κ] (f : α → Nat) {d : AList κ α} {k : κ}
    {v : α} (v' : α) (hnd : (d.map Prod.fst).Nodup) (hget : dictGet d k = some v) :
    ((dictSet d k v').map (fun kv => f kv.2)).sum + f v
      = (d.map (fun kv => f kv.2)).sum + f v' := by
  induction d with
  | nil => simp [dictGet] at hget
  | cons ab rest ih =>
    obtain ⟨a, b⟩ := ab
    simp at hnd
    by_cases ha : a = k
    · subst ha
      simp [dictGet] at hget
      subst hget
      simp [dictSet]
      omega
    · simp [dictGet, ha] at hget
      have := ih hnd.2 hget
      simp [dictSet, ha]
      omega

theorem le_sum_of_mem {κ α : Type} (f : α → Nat) {d : AList κ α} {kv : κ × α} (h : kv ∈ d) :
    f kv.2 ≤ (d.map (fun x => f x.2)).sum := by
  induction d with
  | nil => simp at h
  | cons ab rest ih =>
    simp at h
    rcases h with h | h
    · simp [h]
    · simp
      exact le_trans (ih h) (Nat.le_add_left _ _)

/-! ## Lemmas about the item-search loop -/

theorem findNamedItem_cons (items : AList String Item) (a : String) (rest : List String)
    (n : String) :
    findNamedItem items (a :: rest) n =
      match dictGet items a with
      | some cand =>
        if (strLower cand.name) = (strLower n) then some (a, cand) else findNamedItem items rest n
      | Option.none => findNamedItem items rest n := by
  rw [findNamedItem, List.findSome?_cons]
  cases dictGet items a with
  | none => rfl
  | some cand =>
    by_cases hn : (strLower cand.name) = (strLower n) <;> simp [hn, findNamedItem]

theorem findNamedItem_eq_some {items : AList String Item} {ids : List String}
    {n iid : String} {itm : Item} (h : findNamedItem items ids n = some (iid, itm)) :
    iid ∈ ids ∧ dictGet items iid = some itm ∧ (strLower itm.name) = (strLower n) := by
  induction ids with
  | nil => simp [findNamedItem] at h
  | cons a rest ih =>
    rw [findNamedItem_cons] at h
    cases hg : dictGet items a with
    | none =>
      rw [hg] at h
      have := ih h
      exact ⟨List.mem_cons_of_mem _ this.1, this.2⟩
    | some cand =>
      rw [hg] at h
      by_cases hn : (strLower cand.name) = (strLower n)
      · simp [hn] at h
        obtain ⟨h1, h2⟩ := h
        subst h1
        subst h2
        exact ⟨by simp, hg, hn⟩
      · simp [hn] at h
        have := ih h
        exact ⟨List.mem_cons_of_mem _ this.1, this.2⟩

theorem findNamedItem_eq_none {items : AList String Item} {ids : List String} {n : String}
    (h : findNamedItem items ids n = Option.none) :
    ∀ iid ∈ ids, ∀ itm, dictGet items iid = some itm → (strLower itm.name) ≠ (strLower n) := by
  induction ids with
  | nil => simp
  | cons a rest ih =>
    rw [findNamedItem_cons] at h
    intro iid hm itm hg hn
    rcases List.mem_cons.mp hm with hm | hm
    · subst hm
      rw [hg] at h
      simp [hn] at h
    · cases hg2 : dictGet items a with
      | none =>
        rw [hg2] at h
        exact ih h iid hm itm hg hn
      | some cand =>
        rw [hg2] at h
        by_cases hn2 : (strLower cand.name) = (strLower n)
        · simp [hn2] at h
        · simp [hn2] at h
          exact ih h iid hm itm hg hn

theorem findNamedItem_congr {items items' : AList String Item} {ids : List String}
    {n : String} (h : ∀ iid ∈ ids, dictGet items' iid = dictGet items iid) :
    findNamedItem items' ids n = findNamedItem items ids n := by
  induction ids with
  | nil => rfl
  | cons a rest ih =>
    rw [findNamedItem_cons, findNamedItem_cons, h a (by simp)]
    cases dictGet items a with
    | none =>
      exact ih (fun iid hm => h iid (List.mem_cons_of_mem _ hm))
    | some cand =>
      by_cases hn : (strLower cand.name) = (strLower n)
      · simp [hn]
      · simp [hn]
        exact ih (fun iid hm => h iid (List.mem_cons_of_mem _ hm))

theorem findNamedItem_append_of_none {items : AList String Item} {l1 l2 : List String}
    {n : String} (h : findNamedItem items l1 n = Option.none) :
    findNamedItem items (l1 ++ l2) n = findNamedItem items l2 n := by
  induction l1 with
  | nil => rfl
  | cons a rest ih =>
    rw [List.cons_append, findNamedItem_cons]
    rw [findNamedItem_cons] at h
    cases hg : dictGet items a with
    | none =>
      rw [hg] at h
      exact ih h
    | some cand =>
      rw [hg] at h
      by_cases hn : (strLower cand.name) = (strLower n)
      · simp [hn] at h
      · simp only [hn, if_false]
        simp only [hn, if_false] at h
        exact ih h

/-! ## Characterization of `heldAt` -/

theorem heldAt_true_iff (rooms : AList String Room) (players : AList String Player)
    (loc iid : String) :
    heldAt rooms players loc iid = true ↔
      (∃ r, dictGet rooms loc = some r ∧ iid ∈ r.items) ∨
      (∃ p, dictGet players loc = some p ∧ iid ∈ p.inventory) := by
  unfold heldAt
  cases hg : dictGet rooms loc <;> cases hg2 : dictGet players loc <;> simp [hg, hg2]

/-! ## C2 — the room-entry gate -/

theorem checkAccess_iff {s : GameState} {pid : String} {p : Player} (req : AccessReq)
    (hp : dictGet s.players pid = some p) :
    checkAccessRequirements s pid req = true ↔ amendedAccessOk s p req := by
  by_cases ht : req.isTruthy = true
  · cases hri : req.required_items with
    | none =>
      cases hrf : req.required_flags with
      | none => exact absurd ht (by simp [AccessReq.isTruthy, hri, hrf])
      | some rf2 =>
        simp [checkAccessRequirements, amendedAccessOk, ht, hp, hri, hrf,
          List.all_eq_true, List.elem_iff, List.mem_filterMap, Bool.and_eq_true]
    | some l =>
      cases hrf : req.required_flags with
      | none =>
        simp [checkAccessRequirements, amendedAccessOk, ht, hp, hri, hrf,
          List.all_eq_true, List.elem_iff, List.mem_filterMap, Bool.and_eq_true]
      | some rf2 =>
        simp [checkAccessRequirements, amendedAccessOk, ht, hp, hri, hrf,
          List.all_eq_true, List.elem_iff, List.mem_filterMap, Bool.and_eq_true]
  · have ht' : req.isTruthy = false := by
      revert ht
      cases req.isTruthy <;> simp
    simp [checkAccessRequirements, ht', amendedAccessOk]

/-- C2 counterexample: with `required_flags = {"f": None}` on the target
room and no `"f"` entry in `global_flags`, the spec-worded gate
(`specAccessOk`) fails — `global_flags` does not map `"f"` to anything —
yet the move succeeds, because the code compares
`global_flags.get("f") != None` and the default for a missing flag is
`None`. -/
theorem C2_counterexample :
    ¬ specAccessOk exGateNone exPlayer exRoomGateNone.access_requirements ∧
    exRoomGateNone.access_requirements.isTruthy = true ∧
    dictGet exGateNone.rooms "b" = some exRoomGateNone ∧
    (movePlayer (some exGateNone) "player_1" "north" 1).1.success = true := by
  refine ⟨?_, by decide, by decide, by decide⟩
  unfold specAccessOk
  decide

/-- C2 (amended): under the hypotheses that the game is active, the player
and current room resolve, and the lower-cased direction maps to a non-empty
target room id that resolves, the move succeeds past the gate exactly when
the target room's `access_requirements` are absent/empty or all their
conditions hold — where the flag condition is the code's comparison
`global_flags.get(flag) == value` (a missing flag yields `None`, so a
required value of `None` is satisfied by an absent flag); and when the gate
fails, the move is rejected with the fixed generic
"You cannot access that room yet." result that reveals nothing about the
missing requirement, and nothing is saved. -/
theorem C2_gate (s : GameState) (pid d : String) (now : Int) (p : Player)
    (room target : Room) (tid : String)
    (hact : s.active = true)
    (hp : dictGet s.players pid = some p)
    (hr : dictGet s.rooms p.location = some room)
    (hconn : dictGet room.connections (strLower d) = some tid)
    (htid : tid ≠ "")
    (ht : dictGet s.rooms tid = some target) :
    ((movePlayer (some s) pid d now).1.success = true ↔
       amendedAccessOk s p target.access_requirements) ∧
    (¬ amendedAccessOk s p target.access_requirements →
       movePlayer (some s) pid d now
         = (ActionResult.failWith "You cannot access that room yet.", Option.none)) := by
  have key : movePlayer (some s) pid d now =
      if target.access_requirements.isTruthy &&
          !checkAccessRequirements s pid target.access_requirements then
        (ActionResult.failWith "You cannot access that room yet.", Option.none)
      else
        ({ success := true
           message := "You go " ++ d ++ " to " ++ target.name ++ ".\n" ++ target.description
           state_changes := [("player_location", PyVal.str tid)]
           triggered_events := [] },
         some { s with
           players := dictSet s.players pid { p with location := tid }
           current_turn := s.current_turn + 1
           last_action_at := now }) := by
    simp [movePlayer, hact, hp, hr, hconn, strFalsy, htid, ht]
  by_cases hgate : (target.access_requirements.isTruthy &&
      !checkAccessRequirements s pid target.access_requirements) = true
  · have hnot : ¬ amendedAccessOk s p target.access_requirements := by
      rw [Bool.and_eq_true] at hgate
      intro ha
      have hceq := (checkAccess_iff target.access_requirements hp).mpr ha
      rw [hceq] at hgate
      simp at hgate
    constructor
    · rw [key]
      simp [hgate, ActionResult.failWith]
      exact hnot
    · intro hna
      rw [key]
      simp [hgate]
  · have hok : amendedAccessOk s p target.access_requirements := by
      rw [Bool.and_eq_true] at hgate
      by_cases ht2 : target.access_requirements.isTruthy = true
      · have hcheck : (!checkAccessRequirements s pid target.access_requirements) ≠ true := by
          intro hc
          exact hgate ⟨ht2, hc⟩
        simp at hcheck
        exact (checkAccess_iff target.access_requirements hp).mp hcheck
      · have ht3 : target.access_requirements.isTruthy = false := by
          revert ht2
          cases target.access_requirements.isTruthy <;> simp
        exact Or.inl ht3
    have hgate2 : (target.access_requirements.isTruthy &&
        !checkAccessRequirements s pid target.access_requirements) = false := by
      revert hgate
      cases target.access_requirements.isTruthy &&
        !checkAccessRequirements s pid target.access_requirements <;> simp
    constructor
    · rw [key]
      simp [hgate2]
      exact hok
    · intro hna
      exact absurd hok hna

/-- C2 witness: `C2_gate` applied to a state whose gate
`required_flags = {"f": True}` is satisfied; the move succeeds. -/
theorem C2_witness :
    (movePlayer (some exGateTrueSat) "player_1" "north" 1).1.success = true := by
  have h := C2_gate exGateTrueSat "player_1" "north" 1 exPlayer exRoomA exRoomGateTrue "b"
    rfl (by decide) (by decide) (by decide) (by decide) (by decide)
  refine h.1.mpr ?_
  unfold amendedAccessOk
  decide

/-! ## C1 — inactive game versus unknown game -/

/-- C1 counterexample: the claim says an action on an inactive game fails
with a result distinguishable from the not-found result.  In the code both
cases return the literally identical `ActionResult`, shown here for all
five mutating actions on a stored state with `active = false`. -/
theorem C1_counterexample :
    exInactive.active = false ∧
    movePlayer (some exInactive) "player_1" "north" 5
      = movePlayer Option.none "player_1" "north" 5 ∧
    takeItem (some exInactive) "player_1" "rock" 5
      = takeItem Option.none "player_1" "rock" 5 ∧
    dropItem (some exInactive) "player_1" "rock" 5
      = dropItem Option.none "player_1" "rock" 5 ∧
    useItem (some exInactive) "player_1" "potion" Option.none 5
      = useItem Option.none "player_1" "potion" Option.none 5 ∧
    talkToNpc (some exInactive) "player_1" "guard" Option.none 5
      = talkToNpc Option.none "player_1" "guard" Option.none 5 :=
  ⟨rfl, rfl, rfl, rfl, rfl, rfl⟩

/-- C1 (amended): every mutating action (move, take, drop, use, talk) on a
stored game state with `active = false` fails with exactly the same
`"Game not found or inactive"` result that is returned when no state exists
for the id at all — the two failure cases are conflated into one
indistinguishable result. -/
theorem C1_inactive_conflated (s : GameState) (pid d iname uname nname : String)
    (tgt msg : Option String) (now : Int) (h : s.active = false) :
    movePlayer (some s) pid d now = movePlayer Option.none pid d now ∧
    takeItem (some s) pid iname now = takeItem Option.none pid iname now ∧
    dropItem (some s) pid iname now = dropItem Option.none pid iname now ∧
    useItem (some s) pid uname tgt now = useItem Option.none pid uname tgt now ∧
    talkToNpc (some s) pid nname msg now = talkToNpc Option.none pid nname msg now ∧
    movePlayer Option.none pid d now
      = (ActionResult.failWith "Game not found or inactive", Option.none) := by
  refine ⟨?_, ?_, ?_, ?_, ?_, rfl⟩ <;>
    simp [movePlayer, takeItem, dropItem, useItem, talkToNpc, h]

/-- C1 witness: `C1_inactive_conflated` applied to a concrete ended state. -/
theorem C1_witness :
    movePlayer (some exInactive) "p" "north" 5 = movePlayer Option.none "p" "north" 5 :=
  (C1_inactive_conflated exInactive "p" "north" "rock" "potion" "guard"
    Option.none Option.none 5 rfl).1

/-! ## C6 — moving in a direction without a connection -/

/-- C6: if the lower-cased direction is not a key of the current room's
`connections`, `move` fails with the "cannot go" message and nothing is
saved (second component `none`), so the stored state — `current_turn` and
the player's location included — is unchanged. -/
theorem C6_cannot_go (s : GameState) (pid d : String) (now : Int) (p : Player) (room : Room)
    (hact : s.active = true)
    (hp : dictGet s.players pid = some p)
    (hr : dictGet s.rooms p.location = some room)
    (hconn : dictGet room.connections (strLower d) = Option.none) :
    movePlayer (some s) pid d now
      = (ActionResult.failWith ("You cannot go " ++ d ++ " from here."), Option.none) := by
  simp [movePlayer, hact, hp, hr, hconn, strFalsy]

/-- C6 witness: moving "south" from the start room of `exBase`, which has
only a north exit. -/
theorem C6_witness :
    movePlayer (some exBase) "player_1" "south" 7
      = (ActionResult.failWith "You cannot go south from here.", Option.none) :=
  C6_cannot_go exBase "player_1" "south" 7 exPlayer exRoomA rfl (by decide) (by decide)
    (by decide)

/-! ## C7 — `endGame` idempotence -/

/-- C7: `endGame` on any existing state returns a summary (not an error)
and saves a state with `active = false`; calling it again on that saved
state again returns a summary and again saves an inactive state. -/
theorem C7_endGame_idempotent (gid : String) (s : GameState) (h1 h2 : List LogEntry)
    (o1 o2 : String) (n1 n2 : Int) :
    ∃ sum1 s1 sum2 s2,
      endGame gid (some s) h1 o1 n1 = (EndGameResult.summary sum1, some s1) ∧
      s1.active = false ∧
      endGame gid (some s1) h2 o2 n2 = (EndGameResult.summary sum2, some s2) ∧
      s2.active = false :=
  ⟨_, _, _, _, rfl, rfl, rfl, rfl⟩

/-! ## C8 — `startNewGame` and persistence failure -/

/-- C8 counterexample: the claim says `startNewGame` returns an empty id
exactly when saving the initial snapshot fails.  With the save failing
(`saveOk = false`), the source still returns the generated id, because the
boolean returned by `save_game_state` is never inspected. -/
theorem C8_counterexample :
    (startNewGame "g1" exScenario "P" 0 false).1 = "g1" ∧ ("g1" : String) ≠ "" :=
  ⟨rfl, by decide⟩

/-- C8 (amended): `startNewGame` ignores the result of saving the initial
snapshot: for every scenario definition it returns the generated game id
whether or not the save succeeds (an empty id is produced only by the
exception path, i.e. when constructing the state raises). -/
theorem C8_id_ignores_save (gid : String) (cfg : ScenarioConfig) (pname : String)
    (now : Int) (saveOk : Bool) : (startNewGame gid cfg pname now saveOk).1 = gid := rfl

/-! ## C9 — the `talk` message parameter is never consulted -/

/-- C9: `talk` produces the same result and the same saved successor state
for any two values of its free-text `message` parameter (including
omission): the parameter is bound but never consulted by dialogue
resolution. -/
theorem C9_talk_message_noninterference (state? : Option GameState) (pid nname : String)
    (m1 m2 : Option String) (now : Int) :
    talkToNpc state? pid nname m1 now = talkToNpc state? pid nname m2 now := rfl

/-! ## C10 — `checkInventory` conflates error cases with emptiness -/

/-- C10: `checkInventory` returns the empty list for a missing game state,
for a stored state with `active = false`, and for an unknown player id —
the same value it returns for an existing active game whose player carries
no items, so the cases are indistinguishable from the result. -/
theorem C10_checkInventory_conflation :
    (∀ pid, checkInventory Option.none pid = []) ∧
    (∀ s pid, s.active = false → checkInventory (some s) pid = []) ∧
    (∀ s pid, s.active = true → dictGet s.players pid = Option.none →
      checkInventory (some s) pid = []) ∧
    (∀ s pid p, s.active = true → dictGet s.players pid = some p → p.inventory = [] →
      checkInventory (some s) pid = []) := by
  refine ⟨fun pid => rfl, ?_, ?_, ?_⟩
  · intro s pid h
    simp [checkInventory, h]
  · intro s pid hact hp
    simp [checkInventory, hact, hp]
  · intro s pid p hact hp hinv
    simp [checkInventory, hact, hp, hinv]

/-- C10 witness: the four cases of `C10_checkInventory_conflation` at
concrete inputs, all yielding `[]`. -/
theorem C10_witness :
    checkInventory Option.none "player_1" = [] ∧
    checkInventory (some exInactive) "player_1" = [] ∧
    checkInventory (some exBase) "nobody" = [] ∧
    checkInventory (some exBase) "player_1" = [] :=
  ⟨C10_checkInventory_conflation.1 "player_1",
   C10_checkInventory_conflation.2.1 exInactive "player_1" rfl,
   C10_checkInventory_conflation.2.2.1 exBase "nobody" rfl (by decide),
   C10_checkInventory_conflation.2.2.2 exBase "player_1" exPlayer rfl (by decide) rfl⟩

/-! ## Success-path characterizations of `take` and `drop` -/

theorem takeItem_eq {s : GameState} {pid item_name : String} (now : Int) {p : Player}
    {room : Room} {iid : String} {itm : Item}
    (hact : s.active = true)
    (hp : dictGet s.players pid = some p)
    (hr : dictGet s.rooms p.location = some room)
    (hfind : findNamedItem s.items room.items item_name = some (iid, itm))
    (htk : itm.takeable = true) :
    takeItem (some s) pid item_name now =
      ({ success := true
         message := "You take the " ++ itm.name ++ "."
         state_changes := [("item_location", PyVal.str pid)]
         triggered_events := [] },
       some (takeResultState s pid p room iid itm now)) := by
  simp [takeItem, hact, hp, hr, hfind, htk, takeResultState]

theorem dropItem_eq {s : GameState} {pid item_name : String} (now : Int) {p : Player}
    {room : Room} {iid : String} {itm : Item}
    (hact : s.active = true)
    (hp : dictGet s.players pid = some p)
    (hr : dictGet s.rooms p.location = some room)
    (hfind : findNamedItem s.items p.inventory item_name = some (iid, itm)) :
    dropItem (some s) pid item_name now =
      ({ success := true
         message := "You drop the " ++ itm.name ++ "."
         state_changes := [("item_location", PyVal.str room.id)]
         triggered_events := [] },
       some (dropResultState s pid p room iid itm now)) := by
  simp [dropItem, hact, hp, hr, hfind, dropResultState]

/-! ## C3 — take followed by drop -/

/-- C3 counterexample: in `exTwoRocks` the player already carries item
`"i0"` named "rock" while a second rock `"i1"` lies in the room.  `take`
carries `"i1"` out of the room, but the following `drop` resolves the name
against the inventory and drops `"i0"` first — so the item carried out is
not restored to the room (it stays in inventory with location
`"player_1"`), refuting the claim at this input even though both actions
succeed and the turn advanced by 2. -/
theorem C3_counterexample :
    (takeItem (some exTwoRocks) "player_1" "rock" 1).1.success = true ∧
    ((takeItem (some exTwoRocks) "player_1" "rock" 1).2.map
        (fun s1 => (dropItem (some s1) "player_1" "rock" 2).1.success)) = some true ∧
    ((takeItem (some exTwoRocks) "player_1" "rock" 1).2.map
        (fun s1 => ((dropItem (some s1) "player_1" "rock" 2).2.map
          (fun s2 => ((dictGet s2.rooms "a").map Room.items,
                      (dictGet s2.players "player_1").map Player.inventory,
                      (dictGet s2.items "i1").map Item.location,
                      s2.current_turn)))))
      = some (some (some ["i0"], some ["i1"], some "player_1", 2)) := by
  refine ⟨by decide, by decide, by decide⟩

/-- C3 (amended): if the player's inventory contains no item whose name
matches the taken name (case-insensitively) before the `take`, then
`take(name)` followed by `drop(name)` by the same player in the same room
both succeed, restore the item id to the room's membership (as a
permutation of the original list), set the item's `location` back to the
room's id, return the inventory to its original contents, and advance
`current_turn` by exactly 2. -/
theorem C3_take_drop_inverse (s : GameState) (pid item_name : String) (n1 n2 : Int)
    (p : Player) (room : Room) (iid : String) (itm : Item)
    (hact : s.active = true)
    (hp : dictGet s.players pid = some p)
    (hr : dictGet s.rooms p.location = some room)
    (hfind : findNamedItem s.items room.items item_name = some (iid, itm))
    (htk : itm.takeable = true)
    (hinv : findNamedItem s.items p.inventory item_name = Option.none) :
    ∃ s1 s2,
      (takeItem (some s) pid item_name n1).1.success = true ∧
      (takeItem (some s) pid item_name n1).2 = some s1 ∧
      (dropItem (some s1) pid item_name n2).1.success = true ∧
      (dropItem (some s1) pid item_name n2).2 = some s2 ∧
      s2.current_turn = s.current_turn + 2 ∧
      (∃ room2, dictGet s2.rooms p.location = some room2 ∧
        List.Perm room2.items room.items ∧ iid ∈ room2.items) ∧
      dictGet s2.items iid = some { itm with location := room.id } ∧
      (∃ p2, dictGet s2.players pid = some p2 ∧ p2.inventory = p.inventory) := by
  obtain ⟨hmemr, hgi, hname⟩ := findNamedItem_eq_some hfind
  have hnotinv : iid ∉ p.inventory := fun hin =>
    findNamedItem_eq_none hinv iid hin itm hgi hname
  have htake := takeItem_eq n1 hact hp hr hfind htk
  set s1 := takeResultState s pid p room iid itm n1 with hs1
  -- facts about the intermediate state
  have h1act : s1.active = true := hact
  have h1p : dictGet s1.players pid = some { p with inventory := p.inventory ++ [iid] } :=
    dictGet_dictSet_self _ _ _
  have h1r : dictGet s1.rooms p.location
      = some { room with items := room.items.erase iid } :=
    dictGet_dictSet_self _ _ _
  have h1find : findNamedItem s1.items (p.inventory ++ [iid]) item_name
      = some (iid, { itm with location := pid }) := by
    have hcongr : findNamedItem s1.items p.inventory item_name
        = findNamedItem s.items p.inventory item_name := by
      refine findNamedItem_congr ?_
      intro jid hm
      have hne : iid ≠ jid := fun he => hnotinv (he ▸ hm)
      exact dictGet_dictSet_ne _ _ hne
    rw [findNamedItem_append_of_none (hcongr.trans hinv), findNamedItem_cons]
    rw [show dictGet s1.items iid = some { itm with location := pid } from
      dictGet_dictSet_self _ _ _]
    simp [hname]
  have hdrop := dropItem_eq n2 h1act h1p
    (by rw [show ({ p with inventory := p.inventory ++ [iid] } : Player).location
          = p.location from rfl]; exact h1r) h1find
  refine ⟨s1, _, by rw [htake], by rw [htake], by rw [hdrop], by rw [hdrop], ?_, ?_, ?_, ?_⟩
  · show (dropResultState s1 pid _ _ iid _ n2).current_turn = s.current_turn + 2
    show s1.current_turn + 1 = s.current_turn + 2
    show s.current_turn + 1 + 1 = s.current_turn + 2
    omega
  · refine ⟨{ { room with items := room.items.erase iid } with
        items := room.items.erase iid ++ [iid] }, ?_, ?_, by simp⟩
    · show dictGet (dictSet s1.rooms p.location _) p.location = _
      exact dictGet_dictSet_self _ _ _
    · exact (List.perm_append_singleton _ _).trans (List.perm_cons_erase hmemr).symm
  · show dictGet (dictSet s1.items iid _) iid = _
    rw [dictGet_dictSet_self]
  · refine ⟨_, dictGet_dictSet_self _ _ _, ?_⟩
    show (p.inventory ++ [iid]).erase iid = p.inventory
    rw [List.erase_append_right _ hnotinv, List.erase_cons_head, List.append_nil]

/-- C3 witness: `C3_take_drop_inverse` on `exOneRock`, whose player starts
with an empty inventory. -/
theorem C3_witness :
    ∃ s1 s2,
      (takeItem (some exOneRock) "player_1" "rock" 1).1.success = true ∧
      (takeItem (some exOneRock) "player_1" "rock" 1).2 = some s1 ∧
      (dropItem (some s1) "player_1" "rock" 2).1.success = true ∧
      (dropItem (some s1) "player_1" "rock" 2).2 = some s2 ∧
      s2.current_turn = exOneRock.current_turn + 2 ∧
      (∃ room2, dictGet s2.rooms "a" = some room2 ∧
        List.Perm room2.items ["i1"] ∧ "i1" ∈ room2.items) ∧
      dictGet s2.items "i1" = some { exRock with location := "a" } ∧
      (∃ p2, dictGet s2.players "player_1" = some p2 ∧ p2.inventory = []) :=
  C3_take_drop_inverse exOneRock "player_1" "rock" 1 2 exPlayer
    { exRoomA with items := ["i1"] } "i1" exRock rfl (by decide) (by decide) (by decide)
    (by decide) (by decide)

/-! ## The `use_item` effect loop: structural lemmas -/

/-- Each iteration of the effect loop either leaves rooms, inventory and
the item table unchanged (`set_flag`, missing targets, unknown kinds and
non-consuming `consume`), clears one existing room's `access_requirements`
(`unlock_room`), or erases the used item from inventory and the item table
(`consume` with a truthy `consumed`). -/
theorem applyUseEffect_cases (nm iid : String) (ctx : UseCtx) (eff : String × EffectData) :
    ((applyUseEffect nm iid ctx eff).inventory = ctx.inventory ∧
      (applyUseEffect nm iid ctx eff).items = ctx.items ∧
      (applyUseEffect nm iid ctx eff).rooms = ctx.rooms) ∨
    (∃ rid room2, dictGet ctx.rooms rid = some room2 ∧
      (applyUseEffect nm iid ctx eff).rooms
        = dictSet ctx.rooms rid { room2 with access_requirements := {} } ∧
      (applyUseEffect nm iid ctx eff).inventory = ctx.inventory ∧
      (applyUseEffect nm iid ctx eff).items = ctx.items) ∨
    ((applyUseEffect nm iid ctx eff).inventory = ctx.inventory.erase iid ∧
      (applyUseEffect nm iid ctx eff).items = dictDel ctx.items iid ∧
      (applyUseEffect nm iid ctx eff).rooms = ctx.rooms) := by
  rcases eff with ⟨t, ed⟩
  by_cases h1 : t = "unlock_room"
  · cases hrid : ed.room_id with
    | none => exact Or.inl (by simp [applyUseEffect, h1, hrid])
    | some rid =>
      cases hg : dictGet ctx.rooms rid with
      | none => exact Or.inl (by simp [applyUseEffect, h1, hrid, hg])
      | some room2 =>
        exact Or.inr (Or.inl ⟨rid, room2, hg, by simp [applyUseEffect, h1, hrid, hg],
          by simp [applyUseEffect, h1, hrid, hg], by simp [applyUseEffect, h1, hrid, hg]⟩)
  · by_cases h2 : t = "set_flag"
    · exact Or.inl (by simp [applyUseEffect, h1, h2])
    · by_cases h3 : t = "consume"
      · by_cases h4 : ed.consumed.truthy = true
        · exact Or.inr (Or.inr (by simp [applyUseEffect, h1, h2, h3, h4]))
        · exact Or.inl (by simp [applyUseEffect, h1, h2, h3, h4])
      · exact Or.inl (by simp [applyUseEffect, h1, h2, h3])

theorem useFold_inventory_sublist (nm iid : String) (effs : List (String × EffectData))
    (ctx : UseCtx) :
    List.Sublist (effs.foldl (applyUseEffect nm iid) ctx).inventory ctx.inventory := by
  induction effs generalizing ctx with
  | nil => exact List.Sublist.refl _
  | cons eff rest ih =>
    rw [List.foldl_cons]
    refine List.Sublist.trans (ih (applyUseEffect nm iid ctx eff)) ?_
    rcases applyUseEffect_cases nm iid ctx eff with h | h | h
    · rw [h.1]
    · rw [h.choose_spec.choose_spec.2.2.1]
    · rw [h.1]
      exact List.erase_sublist _ _

theorem useFold_items_keys_sublist (nm iid : String) (effs : List (String × EffectData))
    (ctx : UseCtx) :
    List.Sublist ((effs.foldl (applyUseEffect nm iid) ctx).items.map Prod.fst)
      (ctx.items.map Prod.fst) := by
  induction effs generalizing ctx with
  | nil => exact List.Sublist.refl _
  | cons eff rest ih =>
    rw [List.foldl_cons]
    refine List.Sublist.trans (ih (applyUseEffect nm iid ctx eff)) ?_
    rcases applyUseEffect_cases nm iid ctx eff with h | h | h
    · rw [h.2.1]
    · rw [h.choose_spec.choose_spec.2.2.2]
    · rw [h.2.1, dictDel_keys]
      exact List.erase_sublist _ _

theorem useFold_items_get_other (nm iid jid : String) (hne : iid ≠ jid)
    (effs : List (String × EffectData)) (ctx : UseCtx) :
    dictGet (effs.foldl (applyUseEffect nm iid) ctx).items jid = dictGet ctx.items jid := by
  induction effs generalizing ctx with
  | nil => rfl
  | cons eff rest ih =>
    rw [List.foldl_cons, ih (applyUseEffect nm iid ctx eff)]
    rcases applyUseEffect_cases nm iid ctx eff with h | h | h
    · rw [h.2.1]
    · rw [h.choose_spec.choose_spec.2.2.2]
    · rw [h.2.1, dictGet_dictDel_ne _ hne]

theorem useFold_rooms_items (nm iid : String) (effs : List (String × EffectData))
    (ctx : UseCtx) (loc : String) :
    ((dictGet (effs.foldl (applyUseEffect nm iid) ctx).rooms loc).map Room.items)
      = (dictGet ctx.rooms loc).map Room.items := by
  induction effs generalizing ctx with
  | nil => rfl
  | cons eff rest ih =>
    rw [List.foldl_cons, ih (applyUseEffect nm iid ctx eff)]
    rcases applyUseEffect_cases nm iid ctx eff with h | h | h
    · rw [h.2.2]
    · obtain ⟨rid, room2, hg, hrw, -, -⟩ := h
      rw [hrw]
      by_cases hl : rid = loc
      · subst hl
        rw [dictGet_dictSet_self, hg]
        rfl
      · rw [dictGet_dictSet_ne _ _ hl]
    · rw [h.2.2]

theorem useFold_gone (nm iid : String) (effs : List (String × EffectData)) (ctx : UseCtx)
    (h1 : ctx.inventory.count iid = 0) (h2 : iid ∉ ctx.items.map Prod.fst) :
    (effs.foldl (applyUseEffect nm iid) ctx).inventory.count iid = 0 ∧
      iid ∉ (effs.foldl (applyUseEffect nm iid) ctx).items.map Prod.fst := by
  constructor
  · have := (useFold_inventory_sublist nm iid effs ctx).count_le iid
    omega
  · intro hm
    exact h2 ((useFold_items_keys_sublist nm iid effs ctx).mem hm)

/-- If the used item's `use_effects` contain a truthy `consume` entry, the
effect loop removes the item id from the inventory (which listed it at most
once) and from the item table. -/
theorem useFold_consume (nm iid : String) (effs : List (String × EffectData)) (ctx : UseCtx)
    (ed : EffectData) (hc : ("consume", ed) ∈ effs) (htr : ed.consumed.truthy = true)
    (hcnt : ctx.inventory.count iid ≤ 1) (hkeys : (ctx.items.map Prod.fst).Nodup) :
    (effs.foldl (applyUseEffect nm iid) ctx).inventory.count iid = 0 ∧
      iid ∉ (effs.foldl (applyUseEffect nm iid) ctx).items.map Prod.fst := by
  induction effs generalizing ctx with
  | nil => simp at hc
  | cons eff rest ih =>
    rw [List.foldl_cons]
    rcases List.mem_cons.mp hc with hh | hh
    · subst hh
      have hstep : (applyUseEffect nm iid ctx ("consume", ed)).inventory
            = ctx.inventory.erase iid ∧
          (applyUseEffect nm iid ctx ("consume", ed)).items = dictDel ctx.items iid := by
        constructor <;> simp [applyUseEffect, htr]
      refine useFold_gone nm iid rest _ ?_ ?_
      · rw [hstep.1]
        have := List.count_erase_self iid ctx.inventory
        omega
      · rw [hstep.2, dictDel_keys]
        exact hkeys.not_mem_erase
    · rcases applyUseEffect_cases nm iid ctx eff with h | h | h
      · refine ih _ hh ?_ ?_
        · rw [h.1]
          exact hcnt
        · rw [h.2.1]
          exact hkeys
      · obtain ⟨rid, room2, -, -, hinv, hitems⟩ := h
        refine ih _ hh ?_ ?_
        · rw [hinv]
          exact hcnt
        · rw [hitems]
          exact hkeys
      · refine ih _ hh ?_ ?_
        · rw [h.1]
          have := (List.erase_sublist iid ctx.inventory).count_le iid
          omega
        · rw [h.2.1, dictDel_keys]
          exact hkeys.sublist (List.erase_sublist _ _)

/-- Converse of `findNamedItem_eq_none`: if no id in the list resolves to a
matching item, the search fails. -/
theorem findNamedItem_eq_none_of {items : AList String Item} {ids : List String} {n : String}
    (h : ∀ iid ∈ ids, ∀ itm, dictGet items iid = some itm →
      strLower itm.name ≠ strLower n) :
    findNamedItem items ids n = Option.none := by
  induction ids with
  | nil => rfl
  | cons a rest ih =>
    rw [findNamedItem_cons]
    cases hg : dictGet items a with
    | none => exact ih (fun iid hm itm hg2 => h iid (List.mem_cons_of_mem _ hm) itm hg2)
    | some cand =>
      have hno := h a (by simp) cand hg
      simp only [hno, if_false]
      exact ih (fun iid hm itm hg2 => h iid (List.mem_cons_of_mem _ hm) itm hg2)

/-! ## Success-path characterization of `use` -/

theorem useItem_eq {s : GameState} {pid item_name : String} (tgt : Option String) (now : Int)
    {p : Player} {iid : String} {itm : Item}
    (hact : s.active = true)
    (hp : dictGet s.players pid = some p)
    (hfind : findNamedItem s.items p.inventory item_name = some (iid, itm))
    (huse : itm.useable = true) :
    useItem (some s) pid item_name tgt now =
      ({ success := true
         message := (itm.use_effects.foldl (applyUseEffect itm.name iid) (useCtx0 s p itm)).message
         state_changes :=
           (itm.use_effects.foldl (applyUseEffect itm.name iid) (useCtx0 s p itm)).state_changes
         triggered_events :=
           (itm.use_effects.foldl (applyUseEffect itm.name iid) (useCtx0 s p itm)).triggered_events },
       some (useResultState s pid p
         (itm.use_effects.foldl (applyUseEffect itm.name iid) (useCtx0 s p itm)) now)) := by
  simp [useItem, hact, hp, hfind, huse, useCtx0, useResultState]

/-! ## C5 — consuming an item -/

/-- C5 counterexample: in `exTwoPotions` the player carries the consumable
potion `"p1"` and a spare `"p2"` with the same name.  Using "potion"
consumes `"p1"` (it disappears from inventory and item table), but the
claimed subsequent not-found failure does not happen: a second
`use("potion")` succeeds, resolving to `"p2"`. -/
theorem C5_counterexample :
    (useItem (some exTwoPotions) "player_1" "potion" Option.none 1).1.success = true ∧
    ((useItem (some exTwoPotions) "player_1" "potion" Option.none 1).2.map
        (fun s1 => (dictGet s1.items "p1",
          (dictGet s1.players "player_1").map Player.inventory)))
      = some (Option.none, some ["p2"]) ∧
    ((useItem (some exTwoPotions) "player_1" "potion" Option.none 1).2.map
        (fun s1 => (useItem (some s1) "player_1" "potion" Option.none 2).1.success))
      = some true := by
  refine ⟨by decide, by decide, by decide⟩

/-- C5 (amended): for a useable inventory item whose `use_effects` contain
a `consume` effect with truthy `consumed`, a successful `use` removes the
item id from the player's inventory and deletes it from the item table
(assuming the tables are well-keyed and the inventory lists the id at most
once); and a subsequent `use` or `take` of the same name fails with the
not-found rejection provided no other item with a matching name remains in
the player's inventory (for `use`) or the current room (for `take`). -/
theorem C5_consume (s : GameState) (pid item_name : String) (tgt : Option String)
    (now n3 n4 : Int) (p : Player) (iid : String) (itm : Item) (ed : EffectData) (room : Room)
    (hact : s.active = true)
    (hp : dictGet s.players pid = some p)
    (hfind : findNamedItem s.items p.inventory item_name = some (iid, itm))
    (huse : itm.useable = true)
    (hc : ("consume", ed) ∈ itm.use_effects)
    (htr : ed.consumed.truthy = true)
    (hcnt : p.inventory.count iid ≤ 1)
    (hkeys : (s.items.map Prod.fst).Nodup)
    (hr : dictGet s.rooms p.location = some room)
    (hinvno : ∀ jid ∈ p.inventory, jid ≠ iid → ∀ it2, dictGet s.items jid = some it2 →
      strLower it2.name ≠ strLower item_name)
    (hroomno : ∀ jid ∈ room.items, jid ≠ iid → ∀ it2, dictGet s.items jid = some it2 →
      strLower it2.name ≠ strLower item_name) :
    ∃ s',
      (useItem (some s) pid item_name tgt now).1.success = true ∧
      (useItem (some s) pid item_name tgt now).2 = some s' ∧
      dictGet s'.items iid = Option.none ∧
      (∃ p', dictGet s'.players pid = some p' ∧ iid ∉ p'.inventory) ∧
      useItem (some s') pid item_name tgt n3
        = (ActionResult.failWith ("You don't have a " ++ item_name ++ "."), Option.none) ∧
      takeItem (some s') pid item_name n4
        = (ActionResult.failWith ("There is no " ++ item_name ++ " here."), Option.none) := by
  have huseeq := useItem_eq tgt now hact hp hfind huse
  obtain ⟨ctxF, hctxF⟩ :
      ∃ c, itm.use_effects.foldl (applyUseEffect itm.name iid) (useCtx0 s p itm) = c :=
    ⟨_, rfl⟩
  rw [hctxF] at huseeq
  have hgone := useFold_consume itm.name iid itm.use_effects (useCtx0 s p itm) ed hc htr
    hcnt hkeys
  rw [hctxF] at hgone
  have hsub := useFold_inventory_sublist itm.name iid itm.use_effects (useCtx0 s p itm)
  rw [hctxF] at hsub
  have hsub' : List.Sublist ctxF.inventory p.inventory := hsub
  have hitems_other : ∀ jid, iid ≠ jid → dictGet ctxF.items jid = dictGet s.items jid := by
    intro jid hne
    have hoth := useFold_items_get_other itm.name iid jid hne itm.use_effects (useCtx0 s p itm)
    rw [hctxF] at hoth
    exact hoth
  have hiid_gone : dictGet ctxF.items iid = Option.none :=
    dictGet_eq_none_of_not_mem hgone.2
  have hnomatch_inv : findNamedItem ctxF.items ctxF.inventory item_name = Option.none := by
    refine findNamedItem_eq_none_of ?_
    intro jid hm it2 hg2
    by_cases hne : jid = iid
    · subst hne
      rw [hiid_gone] at hg2
      exact absurd hg2 (by simp)
    · have hjmem : jid ∈ p.inventory := hsub'.mem hm
      rw [hitems_other jid (fun he => hne he.symm)] at hg2
      exact hinvno jid hjmem hne it2 hg2
  have hrooms := useFold_rooms_items itm.name iid itm.use_effects (useCtx0 s p itm) p.location
  rw [hctxF] at hrooms
  have hrooms' : (dictGet ctxF.rooms p.location).map Room.items = some room.items := by
    rw [hrooms]
    show (dictGet s.rooms p.location).map Room.items = some room.items
    rw [hr]
    rfl
  obtain ⟨room', hroom', hroomitems⟩ : ∃ room', dictGet ctxF.rooms p.location = some room' ∧
      room'.items = room.items := by
    cases hg : dictGet ctxF.rooms p.location with
    | none => rw [hg] at hrooms'; exact absurd hrooms' (by simp)
    | some r2 =>
      rw [hg] at hrooms'
      simp at hrooms'
      exact ⟨r2, rfl, hrooms'⟩
  have hnomatch_room : findNamedItem ctxF.items room'.items item_name = Option.none := by
    rw [hroomitems]
    refine findNamedItem_eq_none_of ?_
    intro jid hm it2 hg2
    by_cases hne : jid = iid
    · subst hne
      rw [hiid_gone] at hg2
      exact absurd hg2 (by simp)
    · rw [hitems_other jid (fun he => hne he.symm)] at hg2
      exact hroomno jid hm hne it2 hg2
  have hs'act : (useResultState s pid p ctxF now).active = true := hact
  have hs'p : dictGet (useResultState s pid p ctxF now).players pid
      = some { p with inventory := ctxF.inventory } := dictGet_dictSet_self _ _ _
  refine ⟨useResultState s pid p ctxF now, by rw [huseeq], by rw [huseeq], hiid_gone, ?_, ?_, ?_⟩
  · exact ⟨_, hs'p, List.count_eq_zero.mp hgone.1⟩
  · simp [useItem, hact, hnomatch_inv, useResultState, dictGet_dictSet_self]
  · simp [takeItem, hact, hnomatch_room, useResultState, dictGet_dictSet_self, hroom']

/-- C5 witness: `C5_consume` on `exOnePotion` — the single potion is
consumed and both follow-up actions fail as not-found. -/
theorem C5_witness :
    ∃ s',
      (useItem (some exOnePotion) "player_1" "potion" Option.none 1).1.success = true ∧
      (useItem (some exOnePotion) "player_1" "potion" Option.none 1).2 = some s' ∧
      dictGet s'.items "p1" = Option.none ∧
      (∃ p', dictGet s'.players "player_1" = some p' ∧ "p1" ∉ p'.inventory) ∧
      useItem (some s') "player_1" "potion" Option.none 2
        = (ActionResult.failWith "You don't have a potion.", Option.none) ∧
      takeItem (some s') "player_1" "potion" 3
        = (ActionResult.failWith "There is no potion here.", Option.none) :=
  C5_consume exOnePotion "player_1" "potion" Option.none 1 2 3
    { exPlayer with inventory := ["p1"] } "p1" exPotion
    { consumed := PyVal.bool true } exRoomA rfl (by decide) (by decide) (by decide)
    (by decide) (by decide) (by decide) (by decide) (by decide) (by decide) (by decide)

/-! ## C4 — container-sync preservation lemmas -/

theorem dictSet_keys_nodup {κ α : Type} [DecidableEq κ] {d : AList κ α} {k : κ} {v0 : α}
    (v : α) (h : dictGet d k = some v0) (hnd : (d.map Prod.fst).Nodup) :
    ((dictSet d k v).map Prod.fst).Nodup := by
  rw [dictSet_keys v (by rw [h]; rfl)]
  exact hnd

/-- Moving an item id from the current room's list to the player's
inventory (the `take` success mutation) preserves well-keyedness and the
container-sync invariant. -/
theorem containerSync_take (s : GameState) (pid iid : String) (p : Player) (room : Room)
    (itm : Item)
    (hwk : wellKeyedCore s.rooms s.players s.items)
    (hsync : containerSyncCore s.rooms s.players s.items)
    (hp : dictGet s.players pid = some p)
    (hr : dictGet s.rooms p.location = some room)
    (hi : dictGet s.items iid = some itm)
    (hmem : iid ∈ room.items) :
    wellKeyedCore (dictSet s.rooms p.location { room with items := room.items.erase iid })
      (dictSet s.players pid { p with inventory := p.inventory ++ [iid] })
      (dictSet s.items iid { itm with location := pid }) ∧
    containerSyncCore (dictSet s.rooms p.location { room with items := room.items.erase iid })
      (dictSet s.players pid { p with inventory := p.inventory ++ [iid] })
      (dictSet s.items iid { itm with location := pid }) := by
  obtain ⟨hndr, hndp, hndi, hids⟩ := hwk
  constructor
  · refine ⟨dictSet_keys_nodup _ hr hndr, dictSet_keys_nodup _ hp hndp,
      dictSet_keys_nodup _ hi hndi, ?_⟩
    intro kv hkv
    rcases mem_dictSet hndr hkv with hkv | hkv
    · rw [hkv]
      exact hids (p.location, room) (dictGet_mem hr)
    · exact hids kv hkv.1
  · intro kv hkv
    obtain ⟨jid, itm2⟩ := kv
    rcases mem_dictSet hndi hkv with hkv | ⟨hkvmem, hkvne⟩
    · -- the moved item itself
      rw [Prod.mk.injEq] at hkv
      obtain ⟨hj, hitm2⟩ := hkv
      subst hj
      subst hitm2
      constructor
      · have hex1 := sum_map_dictSet (fun r => r.items.count jid)
          { room with items := room.items.erase jid } hndr hr
        have hex2 := sum_map_dictSet (fun pl => pl.inventory.count jid)
          { p with inventory := p.inventory ++ [jid] } hndp hp
        have hone := (hsync (jid, itm) (dictGet_mem hi)).1
        rw [occCount] at hone
        have hcnt_erase := List.count_erase_self jid room.items
        have hcnt_app : (p.inventory ++ [jid]).count jid = p.inventory.count jid + 1 := by
          simp [List.count_append]
        have hge : 0 < room.items.count jid := List.count_pos_iff.mpr hmem
        have hle := le_sum_of_mem (fun r => r.items.count jid) (dictGet_mem hr)
        dsimp only
        rw [occCount]
        dsimp only at hex1 hex2 hle hone
        omega
      · rw [heldAt_true_iff]
        exact Or.inr ⟨_, dictGet_dictSet_self _ _ _, by simp⟩
    · -- any other item
      obtain ⟨hocc, hheld⟩ := hsync (jid, itm2) hkvmem
      have hne : jid ≠ iid := hkvne
      constructor
      · have hex1 := sum_map_dictSet (fun r => r.items.count jid)
          { room with items := room.items.erase iid } hndr hr
        have hex2 := sum_map_dictSet (fun pl => pl.inventory.count jid)
          { p with inventory := p.inventory ++ [iid] } hndp hp
        have hcnt_erase : (room.items.erase iid).count jid = room.items.count jid :=
          List.count_erase_of_ne hne room.items
        have hcnt_app : (p.inventory ++ [iid]).count jid = p.inventory.count jid := by
          simp [List.count_append, List.count_cons, hne]
        rw [occCount] at hocc
        dsimp only
        rw [occCount]
        dsimp only at hex1 hex2 hocc
        omega
      · rw [heldAt_true_iff] at hheld ⊢
        rcases hheld with ⟨r0, hg0, hm0⟩ | ⟨p0, hg0, hm0⟩
        · by_cases hl : p.location = itm2.location
          · refine Or.inl ⟨{ room with items := room.items.erase iid }, ?_, ?_⟩
            · rw [← hl]
              exact dictGet_dictSet_self _ _ _
            · have hr0 : r0 = room := by
                rw [← hl] at hg0
                rw [hg0] at hr
                exact ((Option.some.injEq _ _).mp hr.symm).symm
              subst hr0
              exact (List.mem_erase_of_ne hne).mpr hm0
          · exact Or.inl ⟨r0, by rw [dictGet_dictSet_ne _ _ hl]; exact hg0, hm0⟩
        · by_cases hl : pid = itm2.location
          · refine Or.inr ⟨{ p with inventory := p.inventory ++ [iid] }, ?_, ?_⟩
            · rw [← hl]
              exact dictGet_dictSet_self _ _ _
            · have hp0 : p0 = p := by
                rw [← hl] at hg0
                rw [hg0] at hp
                exact ((Option.some.injEq _ _).mp hp.symm).symm
              subst hp0
              exact List.mem_append_left _ hm0
          · exact Or.inr ⟨p0, by rw [dictGet_dictSet_ne _ _ hl]; exact hg0, hm0⟩

/-- Moving an item id from the player's inventory to the current room's
list (the `drop` success mutation) preserves well-keyedness and the
container-sync invariant. -/
theorem containerSync_drop (s : GameState) (pid iid : String) (p : Player) (room : Room)
    (itm : Item)
    (hwk : wellKeyedCore s.rooms s.players s.items)
    (hsync : containerSyncCore s.rooms s.players s.items)
    (hp : dictGet s.players pid = some p)
    (hr : dictGet s.rooms p.location = some room)
    (hi : dictGet s.items iid = some itm)
    (hmem : iid ∈ p.inventory) :
    wellKeyedCore (dictSet s.rooms p.location { room with items := room.items ++ [iid] })
      (dictSet s.players pid { p with inventory := p.inventory.erase iid })
      (dictSet s.items iid { itm with location := room.id }) ∧
    containerSyncCore (dictSet s.rooms p.location { room with items := room.items ++ [iid] })
      (dictSet s.players pid { p with inventory := p.inventory.erase iid })
      (dictSet s.items iid { itm with location := room.id }) := by
  obtain ⟨hndr, hndp, hndi, hids⟩ := hwk
  have hroomid : room.id = p.location := hids (p.location, room) (dictGet_mem hr)
  constructor
  · refine ⟨dictSet_keys_nodup _ hr hndr, dictSet_keys_nodup _ hp hndp,
      dictSet_keys_nodup _ hi hndi, ?_⟩
    intro kv hkv
    rcases mem_dictSet hndr hkv with hkv | hkv
    · rw [hkv]
      exact hroomid
    · exact hids kv hkv.1
  · intro kv hkv
    obtain ⟨jid, itm2⟩ := kv
    rcases mem_dictSet hndi hkv with hkv | ⟨hkvmem, hkvne⟩
    · -- the moved item itself
      rw [Prod.mk.injEq] at hkv
      obtain ⟨hj, hitm2⟩ := hkv
      subst hj
      subst hitm2
      constructor
      · have hex1 := sum_map_dictSet (fun r => r.items.count jid)
          { room with items := room.items ++ [jid] } hndr hr
        have hex2 := sum_map_dictSet (fun pl => pl.inventory.count jid)
          { p with inventory := p.inventory.erase jid } hndp hp
        have hone := (hsync (jid, itm) (dictGet_mem hi)).1
        rw [occCount] at hone
        have hcnt_erase := List.count_erase_self jid p.inventory
        have hcnt_app : (room.items ++ [jid]).count jid = room.items.count jid + 1 := by
          simp [List.count_append]
        have hge : 0 < p.inventory.count jid := List.count_pos_iff.mpr hmem
        have hle := le_sum_of_mem (fun pl => pl.inventory.count jid) (dictGet_mem hp)
        dsimp only
        rw [occCount]
        dsimp only at hex1 hex2 hle hone
        omega
      · rw [heldAt_true_iff]
        refine Or.inl ⟨{ room with items := room.items ++ [jid] }, ?_, by simp⟩
        dsimp only
        rw [hroomid]
        exact dictGet_dictSet_self _ _ _
    · -- any other item
      obtain ⟨hocc, hheld⟩ := hsync (jid, itm2) hkvmem
      have hne : jid ≠ iid := hkvne
      constructor
      · have hex1 := sum_map_dictSet (fun r => r.items.count jid)
          { room with items := room.items ++ [iid] } hndr hr
        have hex2 := sum_map_dictSet (fun pl => pl.inventory.count jid)
          { p with inventory := p.inventory.erase iid } hndp hp
        have hcnt_erase : (p.inventory.erase iid).count jid = p.inventory.count jid :=
          List.count_erase_of_ne hne p.inventory
        have hcnt_app : (room.items ++ [iid]).count jid = room.items.count jid := by
          simp [List.count_append, List.count_cons, hne]
        rw [occCount] at hocc
        dsimp only
        rw [occCount]
        dsimp only at hex1 hex2 hocc
        omega
      · rw [heldAt_true_iff] at hheld ⊢
        rcases hheld with ⟨r0, hg0, hm0⟩ | ⟨p0, hg0, hm0⟩
        · by_cases hl : p.location = itm2.location
          · refine Or.inl ⟨{ room with items := room.items ++ [iid] }, ?_, ?_⟩
            · rw [← hl]
              exact dictGet_dictSet_self _ _ _
            · have hr0 : r0 = room := by
                rw [← hl] at hg0
                rw [hg0] at hr
                exact ((Option.some.injEq _ _).mp hr.symm).symm
              subst hr0
              exact List.mem_append_left _ hm0
          · exact Or.inl ⟨r0, by rw [dictGet_dictSet_ne _ _ hl]; exact hg0, hm0⟩
        · by_cases hl : pid = itm2.location
          · refine Or.inr ⟨{ p with inventory := p.inventory.erase iid }, ?_, ?_⟩
            · rw [← hl]
              exact dictGet_dictSet_self _ _ _
            · have hp0 : p0 = p := by
                rw [← hl] at hg0
                rw [hg0] at hp
                exact ((Option.some.injEq _ _).mp hp.symm).symm
              subst hp0
              exact (List.mem_erase_of_ne hne).mpr hm0
          · exact Or.inr ⟨p0, by rw [dictGet_dictSet_ne _ _ hl]; exact hg0, hm0⟩

/-- Changing only a player's `location` (the `move` success mutation)
preserves well-keyedness and the container-sync invariant. -/
theorem containerSync_move (s : GameState) (pid tid : String) (p : Player)
    (hwk : wellKeyedCore s.rooms s.players s.items)
    (hsync : containerSyncCore s.rooms s.players s.items)
    (hp : dictGet s.players pid = some p) :
    wellKeyedCore s.rooms (dictSet s.players pid { p with location := tid }) s.items ∧
    containerSyncCore s.rooms (dictSet s.players pid { p with location := tid }) s.items := by
  obtain ⟨hndr, hndp, hndi, hids⟩ := hwk
  refine ⟨⟨hndr, dictSet_keys_nodup _ hp hndp, hndi, hids⟩, ?_⟩
  intro kv hkv
  obtain ⟨jid, itm2⟩ := kv
  obtain ⟨hocc, hheld⟩ := hsync (jid, itm2) hkv
  constructor
  · have hex := sum_map_dictSet (fun pl => pl.inventory.count jid)
      { p with location := tid } hndp hp
    rw [occCount] at hocc
    dsimp only
    rw [occCount]
    dsimp only at hex hocc
    omega
  · rw [heldAt_true_iff] at hheld ⊢
    rcases hheld with ⟨r0, hg0, hm0⟩ | ⟨p0, hg0, hm0⟩
    · exact Or.inl ⟨r0, hg0, hm0⟩
    · by_cases hl : pid = itm2.location
      · refine Or.inr ⟨{ p with location := tid }, ?_, ?_⟩
        · rw [← hl]
          exact dictGet_dictSet_self _ _ _
        · have hp0 : p0 = p := by
            rw [← hl] at hg0
            rw [hg0] at hp
            exact ((Option.some.injEq _ _).mp hp.symm).symm
          subst hp0
          exact hm0
      · exact Or.inr ⟨p0, by rw [dictGet_dictSet_ne _ _ hl]; exact hg0, hm0⟩

/-- Clearing one room's `access_requirements` (the `unlock_room` effect)
preserves well-keyedness and the container-sync invariant. -/
theorem containerSync_unlock (rooms : AList String Room) (players : AList String Player)
    (items : AList String Item) (rid : String) (room2 : Room)
    (hwk : wellKeyedCore rooms players items)
    (hsync : containerSyncCore rooms players items)
    (hg : dictGet rooms rid = some room2) :
    wellKeyedCore (dictSet rooms rid { room2 with access_requirements := {} }) players items ∧
    containerSyncCore (dictSet rooms rid { room2 with access_requirements := {} })
      players items := by
  obtain ⟨hndr, hndp, hndi, hids⟩ := hwk
  constructor
  · refine ⟨dictSet_keys_nodup _ hg hndr, hndp, hndi, ?_⟩
    intro kv hkv
    rcases mem_dictSet hndr hkv with hkv | hkv
    · rw [hkv]
      exact hids (rid, room2) (dictGet_mem hg)
    · exact hids kv hkv.1
  · intro kv hkv
    obtain ⟨jid, itm2⟩ := kv
    obtain ⟨hocc, hheld⟩ := hsync (jid, itm2) hkv
    constructor
    · have hex := sum_map_dictSet (fun r => r.items.count jid)
        { room2 with access_requirements := {} } hndr hg
      rw [occCount] at hocc
      dsimp only
      rw [occCount]
      dsimp only at hex hocc
      omega
    · rw [heldAt_true_iff] at hheld ⊢
      rcases hheld with ⟨r0, hg0, hm0⟩ | ⟨p0, hg0, hm0⟩
      · by_cases hl : rid = itm2.location
        · refine Or.inl ⟨{ room2 with access_requirements := {} }, ?_, ?_⟩
          · rw [← hl]
            exact dictGet_dictSet_self _ _ _
          · have hr0 : r0 = room2 := by
              rw [← hl] at hg0
              rw [hg0] at hg
              exact ((Option.some.injEq _ _).mp hg.symm).symm
            subst hr0
            exact hm0
        · exact Or.inl ⟨r0, by rw [dictGet_dictSet_ne _ _ hl]; exact hg0, hm0⟩
      · exact Or.inr ⟨p0, hg0, hm0⟩

/-- Deleting the consumed item from the inventory and the item table (the
`consume` effect) preserves well-keyedness and the container-sync
invariant, whatever the current loop inventory is. -/
theorem containerSync_consume (rooms : AList String Room) (players₀ : AList String Player)
    (pid : String) (p : Player) (inv : List String) (items : AList String Item) (iid : String)
    (hp : dictGet players₀ pid = some p)
    (hwk : wellKeyedCore rooms (dictSet players₀ pid { p with inventory := inv }) items)
    (hsync : containerSyncCore rooms (dictSet players₀ pid { p with inventory := inv }) items) :
    wellKeyedCore rooms (dictSet players₀ pid { p with inventory := inv.erase iid })
      (dictDel items iid) ∧
    containerSyncCore rooms (dictSet players₀ pid { p with inventory := inv.erase iid })
      (dictDel items iid) := by
  obtain ⟨hndr, hndp1, hndi, hids⟩ := hwk
  have hkeysP : (dictSet players₀ pid { p with inventory := inv }).map Prod.fst
      = players₀.map Prod.fst := dictSet_keys _ (by rw [hp]; rfl)
  have hndp0 : (players₀.map Prod.fst).Nodup := by
    rw [hkeysP] at hndp1
    exact hndp1
  constructor
  · refine ⟨hndr, dictSet_keys_nodup _ hp hndp0, ?_, hids⟩
    rw [dictDel_keys]
    exact hndi.erase iid
  · intro kv hkv
    obtain ⟨jid, itm2⟩ := kv
    have hmem0 : (jid, itm2) ∈ items := mem_dictDel hkv
    have hne : jid ≠ iid := mem_dictDel_ne hndi hkv
    obtain ⟨hocc, hheld⟩ := hsync (jid, itm2) hmem0
    constructor
    · have hexA := sum_map_dictSet (fun pl => pl.inventory.count jid)
        { p with inventory := inv } hndp0 hp
      have hexB := sum_map_dictSet (fun pl => pl.inventory.count jid)
        { p with inventory := inv.erase iid } hndp0 hp
      have hcnt : (inv.erase iid).count jid = inv.count jid :=
        List.count_erase_of_ne hne inv
      rw [occCount] at hocc
      dsimp only
      rw [occCount]
      dsimp only at hexA hexB hocc
      omega
    · rw [heldAt_true_iff] at hheld ⊢
      rcases hheld with ⟨r0, hg0, hm0⟩ | ⟨p0, hg0, hm0⟩
      · exact Or.inl ⟨r0, hg0, hm0⟩
      · by_cases hl : pid = itm2.location
        · refine Or.inr ⟨{ p with inventory := inv.erase iid }, ?_, ?_⟩
          · rw [← hl]
            exact dictGet_dictSet_self _ _ _
          · have hp0 : p0 = { p with inventory := inv } := by
              rw [← hl] at hg0
              rw [show dictGet (dictSet players₀ pid { p with inventory := inv }) pid
                  = some { p with inventory := inv } from dictGet_dictSet_self _ _ _] at hg0
              injection hg0 with hx
              exact hx.symm
            subst hp0
            simp only at hm0
            exact (List.mem_erase_of_ne hne).mpr hm0
        · refine Or.inr ⟨p0, ?_, hm0⟩
          rw [dictGet_dictSet_ne _ _ hl]
          rw [dictGet_dictSet_ne _ _ hl] at hg0
          exact hg0

/-- The whole `use_item` effect loop preserves well-keyedness and the
container-sync invariant of the state it will be written back into. -/
theorem useFold_sync (nm iid : String) (effs : List (String × EffectData))
    (players₀ : AList String Player) (pid : String) (p : Player)
    (hp : dictGet players₀ pid = some p) (ctx : UseCtx)
    (h : wellKeyedCore ctx.rooms
        (dictSet players₀ pid { p with inventory := ctx.inventory }) ctx.items ∧
      containerSyncCore ctx.rooms
        (dictSet players₀ pid { p with inventory := ctx.inventory }) ctx.items) :
    wellKeyedCore (effs.foldl (applyUseEffect nm iid) ctx).rooms
      (dictSet players₀ pid
        { p with inventory := (effs.foldl (applyUseEffect nm iid) ctx).inventory })
      (effs.foldl (applyUseEffect nm iid) ctx).items ∧
    containerSyncCore (effs.foldl (applyUseEffect nm iid) ctx).rooms
      (dictSet players₀ pid
        { p with inventory := (effs.foldl (applyUseEffect nm iid) ctx).inventory })
      (effs.foldl (applyUseEffect nm iid) ctx).items := by
  induction effs generalizing ctx with
  | nil => exact h
  | cons eff rest ih =>
    rw [List.foldl_cons]
    refine ih (applyUseEffect nm iid ctx eff) ?_
    rcases applyUseEffect_cases nm iid ctx eff with hA | hB | hC
    · rw [hA.1, hA.2.1, hA.2.2]
      exact h
    · obtain ⟨rid, room2, hg, hrw, hinv, hitems⟩ := hB
      rw [hrw, hinv, hitems]
      exact containerSync_unlock ctx.rooms _ ctx.items rid room2 h.1 h.2 hg
    · rw [hC.1, hC.2.1, hC.2.2]
      exact containerSync_consume ctx.rooms players₀ pid p ctx.inventory ctx.items iid hp
        h.1 h.2

/-- C4: every successful `move`, `take`, `drop` or `use` preserves the
container-sync invariant — in the saved state each item id in the item
table still occurs exactly once across all room `items` lists and player
inventories, located at the container keyed by its `location` field — and
also preserves the structural well-keyedness of the tables. -/
theorem C4_container_sync :
    (∀ s pid d now s', wellKeyed s → containerSync s →
      (movePlayer (some s) pid d now).1.success = true →
      (movePlayer (some s) pid d now).2 = some s' →
      wellKeyed s' ∧ containerSync s') ∧
    (∀ s pid iname now s', wellKeyed s → containerSync s →
      (takeItem (some s) pid iname now).1.success = true →
      (takeItem (some s) pid iname now).2 = some s' →
      wellKeyed s' ∧ containerSync s') ∧
    (∀ s pid iname now s', wellKeyed s → containerSync s →
      (dropItem (some s) pid iname now).1.success = true →
      (dropItem (some s) pid iname now).2 = some s' →
      wellKeyed s' ∧ containerSync s') ∧
    (∀ s pid iname tgt now s', wellKeyed s → containerSync s →
      (useItem (some s) pid iname tgt now).1.success = true →
      (useItem (some s) pid iname tgt now).2 = some s' →
      wellKeyed s' ∧ containerSync s') := by
  refine ⟨?_, ?_, ?_, ?_⟩
  · -- move
    intro s pid d now s' hwk hsync _hsucc h2
    by_cases hact : s.active = true
    · cases hp : dictGet s.players pid with
      | none => simp [movePlayer, hact, hp] at h2
      | some p =>
        cases hr : dictGet s.rooms p.location with
        | none => simp [movePlayer, hact, hp, hr] at h2
        | some room =>
          cases hconn : dictGet room.connections (strLower d) with
          | none => simp [movePlayer, hact, hp, hr, hconn, strFalsy] at h2
          | some tid =>
            by_cases htid : tid = ""
            · simp [movePlayer, hact, hp, hr, hconn, strFalsy, htid] at h2
            · cases ht : dictGet s.rooms tid with
              | none => simp [movePlayer, hact, hp, hr, hconn, strFalsy, htid, ht] at h2
              | some target =>
                by_cases hgate : (target.access_requirements.isTruthy &&
                    !checkAccessRequirements s pid target.access_requirements) = true
                · simp [movePlayer, hact, hp, hr, hconn, strFalsy, htid, ht, hgate] at h2
                · have hgate2 : (target.access_requirements.isTruthy &&
                      !checkAccessRequirements s pid target.access_requirements) = false := by
                    revert hgate
                    cases target.access_requirements.isTruthy &&
                      !checkAccessRequirements s pid target.access_requirements <;> simp
                  simp [movePlayer, hact, hp, hr, hconn, strFalsy, htid, ht, hgate2] at h2
                  subst h2
                  exact containerSync_move s pid tid p hwk hsync hp
    · have hact' : s.active = false := by
        revert hact
        cases s.active <;> simp
      simp [movePlayer, hact'] at h2
  · -- take
    intro s pid iname now s' hwk hsync _hsucc h2
    by_cases hact : s.active = true
    · cases hp : dictGet s.players pid with
      | none => simp [takeItem, hact, hp] at h2
      | some p =>
        cases hr : dictGet s.rooms p.location with
        | none => simp [takeItem, hact, hp, hr] at h2
        | some room =>
          cases hf : findNamedItem s.items room.items iname with
          | none => simp [takeItem, hact, hp, hr, hf] at h2
          | some pr =>
            obtain ⟨iid, itm⟩ := pr
            by_cases htk : itm.takeable = true
            · rw [takeItem_eq now hact hp hr hf htk] at h2
              simp only [Option.some.injEq] at h2
              subst h2
              obtain ⟨-, hgi, -⟩ := findNamedItem_eq_some hf
              obtain ⟨hmem, -, -⟩ := findNamedItem_eq_some hf
              exact containerSync_take s pid iid p room itm hwk hsync hp hr hgi hmem
            · have htk' : itm.takeable = false := by
                revert htk
                cases itm.takeable <;> simp
              simp [takeItem, hact, hp, hr, hf, htk'] at h2
    · have hact' : s.active = false := by
        revert hact
        cases s.active <;> simp
      simp [takeItem, hact'] at h2
  · -- drop
    intro s pid iname now s' hwk hsync _hsucc h2
    by_cases hact : s.active = true
    · cases hp : dictGet s.players pid with
      | none => simp [dropItem, hact, hp] at h2
      | some p =>
        cases hr : dictGet s.rooms p.location with
        | none => simp [dropItem, hact, hp, hr] at h2
        | some room =>
          cases hf : findNamedItem s.items p.inventory iname with
          | none => simp [dropItem, hact, hp, hr, hf] at h2
          | some pr =>
            obtain ⟨iid, itm⟩ := pr
            rw [dropItem_eq now hact hp hr hf] at h2
            simp only [Option.some.injEq] at h2
            subst h2
            obtain ⟨hmem, hgi, -⟩ := findNamedItem_eq_some hf
            exact containerSync_drop s pid iid p room itm hwk hsync hp hr hgi hmem
    · have hact' : s.active = false := by
        revert hact
        cases s.active <;> simp
      simp [dropItem, hact'] at h2
  · -- use
    intro s pid iname tgt now s' hwk hsync _hsucc h2
    by_cases hact : s.active = true
    · cases hp : dictGet s.players pid with
      | none => simp [useItem, hact, hp] at h2
      | some p =>
        cases hf : findNamedItem s.items p.inventory iname with
        | none => simp [useItem, hact, hp, hf] at h2
        | some pr =>
          obtain ⟨iid, itm⟩ := pr
          by_cases huse : itm.useable = true
          · rw [useItem_eq tgt now hact hp hf huse] at h2
            simp only [Option.some.injEq] at h2
            subst h2
            have hbase : wellKeyedCore (useCtx0 s p itm).rooms
                (dictSet s.players pid
                  { p with inventory := (useCtx0 s p itm).inventory })
                (useCtx0 s p itm).items ∧
                containerSyncCore (useCtx0 s p itm).rooms
                  (dictSet s.players pid
                    { p with inventory := (useCtx0 s p itm).inventory })
                  (useCtx0 s p itm).items := by
              rw [show ({ p with inventory := (useCtx0 s p itm).inventory } : Player) = p
                from rfl]
              rw [show (useCtx0 s p itm).rooms = s.rooms from rfl,
                show (useCtx0 s p itm).items = s.items from rfl, dictSet_self hp]
              exact ⟨hwk, hsync⟩
            exact useFold_sync itm.name iid itm.use_effects s.players pid p hp
              (useCtx0 s p itm) hbase
          · have huse' : itm.useable = false := by
              revert huse
              cases itm.useable <;> simp
            simp [useItem, hact, hp, hf, huse'] at h2
    · have hact' : s.active = false := by
        revert hact
        cases s.active <;> simp
      simp [useItem, hact'] at h2

/-- C4 witness: `C4_container_sync` (take component) applied to the
concrete `exOneRock` state and its saved successor. -/
theorem C4_witness :
    wellKeyed exOneRock ∧ containerSync exOneRock ∧
    (takeItem (some exOneRock) "player_1" "rock" 1).2 = some exOneRockTaken ∧
    (wellKeyed exOneRockTaken ∧ containerSync exOneRockTaken) := by
  refine ⟨?_, ?_, ?_, ?_⟩
  · unfold wellKeyed wellKeyedCore
    decide
  · unfold containerSync containerSyncCore
    decide
  · decide
  · refine C4_container_sync.2.1 exOneRock "player_1" "rock" 1 exOneRockTaken ?_ ?_ ?_ ?_
    · unfold wellKeyed wellKeyedCore
      decide
    · unfold containerSync containerSyncCore
      decide
    · decide
    · decide

end StateOfPlay
